import Mathlib

/-!
# rocho: authentication engines and the permission voting manager

A shallow embedding of `engine.go`, `auth_token.go`, `authentication.go` and
`perm/manager.go`.

Conventions of the embedding.

* A Go `interface{}` value (`AuthData`, `UserData`, `AuthToken`, `Check.User`, ...)
  is an `Option` over a type of dynamic values: `none` is the `nil` interface.
* A Go `error` is an `Option GoError`: `none` is `nil`.
* Collaborators (voters, providers, refillers, ...) are functions from their
  arguments to the tuple they return.  A Go function may return a value together
  with an error, so results are pairs, never sums.
* Every call a method makes on a collaborator is appended, at the call site and in
  program order, to the `calls` field of the returned outcome.  "Collaborator `x`
  is not invoked" is a statement about that list.
-/

set_option autoImplicit false

namespace Rocho

/-! ## Errors -/

/-- Go error values of the package.  `ErrAuthDataNotSupported` and `ErrNoUserData`
are the two sentinels of `authentication.go`; `errorString msg` is any other
`errors.New(msg)` value; `ProviderFiledError e` is `&ProviderFiledError{Err: e}`,
whose `Unwrap` returns `e`. -/
inductive GoError where
  | ErrAuthDataNotSupported : GoError
  | ErrNoUserData : GoError
  | errorString (msg : String) : GoError
  | ProviderFiledError (Err : GoError) : GoError
  deriving DecidableEq, Repr

/-- The unwrap chain walked by `errors.Is(err, target)` for a non-nil `err`: `err`
matches when it equals `target` or when what it unwraps to matches.  No error type
of the package has an `Is` method. -/
def GoError.isTarget : GoError → GoError → Bool
  | GoError.ProviderFiledError inner, target =>
      (GoError.ProviderFiledError inner == target) || GoError.isTarget inner target
  | e, target => e == target

/-- The standard library `errors.Is(err, target)` for a non-nil `target`: a `nil`
error matches nothing. -/
def errorsIs : Option GoError → GoError → Bool
  | none, _ => false
  | some e, target => e.isTarget target

/-- Go `context.Context`: opaque to this code, handed on to every collaborator. -/
structure Context where
  id : Nat
  deriving DecidableEq, Repr

/-- The result a method returns (its value and its error) together with the
collaborator calls it made, in program order. -/
structure Outcome (α : Type) (E : Type) where
  val : α
  err : Option GoError
  calls : List E

namespace Perm

/-! ## perm/manager.go -/

/-- Go `type Permission string`. -/
abbrev Permission := String

/-- Go `type VoterResult uint16`; only compared, never computed with. -/
abbrev VoterResult := Nat

/-- Go `VoterResult.IsZero`. -/
def VoterResult.IsZero (vr : VoterResult) : Bool := vr == 0

/-- Go `VoterNeutral VoterResult = iota + 1`. -/
def VoterNeutral : VoterResult := 1
/-- Second constant of the `iota + 1` block. -/
def VoterNoSupport : VoterResult := 2
/-- Third constant of the `iota + 1` block. -/
def VoterAgree : VoterResult := 3
/-- Fourth constant of the `iota + 1` block. -/
def VoterDeny : VoterResult := 4

/-- Go `map[string]VoterResult`, as a list of entries with pairwise distinct keys. -/
abbrev VoterResultMap := List (String × VoterResult)

/-- Go map assignment `m[k] = v`: replaces the entry of `k` if there is one. -/
def VoterResultMap.set (m : VoterResultMap) (k : String) (v : VoterResult) : VoterResultMap :=
  m.filter (fun e => e.1 != k) ++ [(k, v)]

/-- Go map lookup `v, ok := m[k]`. -/
def VoterResultMap.get? (m : VoterResultMap) (k : String) : Option VoterResult :=
  List.lookup k m

/-- Go `len(m)`. -/
def VoterResultMap.size (m : VoterResultMap) : Nat := m.length

/-- Go `type Check struct`. -/
structure Check (V : Type) where
  Permission : Permission
  User : Option V
  Subject : Option V

/-- Go `type CheckResult struct`; `VoterResults` is `none` for the `nil` map. -/
structure CheckResult (V : Type) where
  IsAllowed : Bool
  Permission : Permission
  User : Option V
  Subject : Option V
  VoterResults : Option VoterResultMap

/-- The zero value of `CheckResult`, which the named result `res` starts as. -/
def CheckResult.zero (V : Type) : CheckResult V :=
  { IsAllowed := false, Permission := "", User := none, Subject := none, VoterResults := none }

/-- The entry of `voterName` in `res.VoterResults`, if any. -/
def CheckResult.entry {V : Type} (cr : CheckResult V) (voterName : String) : Option VoterResult :=
  match cr.VoterResults with
  | none => none
  | some m => m.get? voterName

/-- Go `(*CheckResult).GetVoterResult`: the zero result when nothing is recorded. -/
def CheckResult.GetVoterResult {V : Type} (cr : Option (CheckResult V)) (voterName : String) :
    VoterResult :=
  match cr with
  | none => 0
  | some r =>
    match r.VoterResults with
    | none => 0
    | some m => (m.get? voterName).getD 0

/-- Go `(*CheckResult).Allow`. -/
def CheckResult.Allow {V : Type} (cr : Option (CheckResult V)) : Bool :=
  match cr with
  | none => false
  | some r => r.IsAllowed

/-- Go `type Voter interface`. -/
structure Voter (V : Type) where
  VoteOnAccess : Context → Check V → VoterResult × Option GoError

/-- Go `type NamedVoter struct`. -/
structure NamedVoter (V : Type) where
  Voter : Voter V
  Name : String

/-- Go `type DefaultManager struct`. -/
structure DefaultManager (V : Type) where
  Voters : List (NamedVoter V)

/-- The vote of a named voter on a check. -/
def NamedVoter.vote {V : Type} (nv : NamedVoter V) (ctx : Context) (c : Check V) : VoterResult :=
  (nv.Voter.VoteOnAccess ctx c).1

/-- The error of a named voter on a check. -/
def NamedVoter.voteErr {V : Type} (nv : NamedVoter V) (ctx : Context) (c : Check V) :
    Option GoError :=
  (nv.Voter.VoteOnAccess ctx c).2

/-- The `for _, dm := range dm.Voters` loop of `CheckPermission` and the code after
it.  `i` is the index of the next voter; `res` is the named result, `agreed` the
local counter (a Go `int`: it counts voters of one slice, so it cannot wrap);
`calls` lists the indices of the voters invoked so far. -/
def CheckPermission.loop {V : Type} (ctx : Context) (c : Check V) :
    List (NamedVoter V) → Nat → CheckResult V → Nat → List Nat →
      Outcome (CheckResult V) Nat
  | [], _, res, agreed, calls =>
      if agreed > 0 then
        { val := { res with IsAllowed := true }, err := none, calls := calls }
      else
        { val := res, err := none, calls := calls }
  | dm :: rest, i, res, agreed, calls =>
      let r := dm.Voter.VoteOnAccess ctx c
      let vr := r.1
      let err := r.2
      let calls := calls ++ [i]
      if err.isSome then
        { val := res, err := err, calls := calls }
      else
        let res := { res with VoterResults := res.VoterResults.map (fun m => m.set dm.Name vr) }
        if vr = VoterAgree then
          CheckPermission.loop ctx c rest (i + 1) res (agreed + 1) calls
        else if vr = VoterDeny then
          { val := res, err := err, calls := calls }
        else
          CheckPermission.loop ctx c rest (i + 1) res agreed calls

/-- Go `(*DefaultManager).CheckPermission`. -/
def DefaultManager.CheckPermission {V : Type} (dm : DefaultManager V) (ctx : Context)
    (c : Check V) : Outcome (CheckResult V) Nat :=
  CheckPermission.loop ctx c dm.Voters 0
    { CheckResult.zero V with VoterResults := some [] } 0 []

/-! ### Auxiliary definitions for the loop of `CheckPermission` -/

/-- The named result after the votes of `vs` have been recorded in it, in order. -/
def recordVotes {V : Type} (ctx : Context) (c : Check V) (res : CheckResult V)
    (vs : List (NamedVoter V)) : CheckResult V :=
  vs.foldl (fun r v =>
    { r with VoterResults := r.VoterResults.map (fun m => m.set v.Name (v.vote ctx c)) }) res

/-- A voter that neither fails nor denies: the loop goes on after it. -/
def NamedVoter.passes {V : Type} (nv : NamedVoter V) (ctx : Context) (c : Check V) : Prop :=
  nv.voteErr ctx c = none ∧ nv.vote ctx c ≠ VoterDeny

/-- The audit map after the votes of `vs` have been assigned into it, in order. -/
def recordMap {V : Type} (ctx : Context) (c : Check V) (m : VoterResultMap)
    (vs : List (NamedVoter V)) : VoterResultMap :=
  vs.foldl (fun m v => m.set v.Name (v.vote ctx c)) m

/-- The result with which `CheckPermission` enters its loop. -/
def initialResult (V : Type) : CheckResult V :=
  { CheckResult.zero V with VoterResults := some [] }

/-- Number of `VoterAgree` votes among `vs`. -/
def agreeCount {V : Type} (ctx : Context) (c : Check V) (vs : List (NamedVoter V)) : Nat :=
  vs.countP (fun v => decide (v.vote ctx c = VoterAgree))

end Perm

/-! ## authentication.go, auth_token.go, engine.go

The type parameters `A`, `U` and `T` are the types of the dynamic values held by
the `interface{}` aliases `AuthData`, `UserData` and `AuthToken`.  Interface-typed
fields that the engines call without a `nil` check (parser, authenticator,
serializers) are taken as configured. -/

/-- Go `*http.Request`: opaque to the engines, handed on to the parser or deserializer. -/
structure Request where
  id : Nat
  deriving DecidableEq, Repr

/-- Go `http.ResponseWriter`, as the bytes written to it so far. -/
structure ResponseWriter where
  written : List (Fin 256)
  deriving DecidableEq, Repr

/-- Go `[]byte`. -/
abbrev Bytes := List (Fin 256)

/-- Go `type AuthDataParser interface`. -/
structure AuthDataParser (A : Type) where
  ParseAuthData : Context → Request → Option A × Option GoError

/-- Go `type UserDataProvider interface`. -/
structure UserDataProvider (A U : Type) where
  GetUserData : Context → Option A → Option U × Option GoError

/-- Go `type Authenticator interface`. -/
structure Authenticator (A U T : Type) where
  Authenticate : Context → Option A → Option U → Option T × Option GoError

/-- Go `type AuthTokenValidator interface`. -/
structure AuthTokenValidator (T : Type) where
  ValidatePreRefill : Context → Option T → Option GoError
  ValidateAfterRefill : Context → Option T → Option GoError

/-- Go `type AuthTokenSerializer interface`. -/
structure AuthTokenSerializer (T : Type) where
  SerializeAuthToken : Context → Option T → Bytes × Option GoError
  DeserializeAuthToken : Context → Bytes → Option T × Option GoError

/-- Go `type HTTPAuthTokenSerializer interface`. -/
structure HTTPAuthTokenSerializer (T : Type) where
  SerializeAuthTokenToResponse : Context → Option T → ResponseWriter →
    ResponseWriter × Option GoError
  DeserializeAuthTokenFromRequest : Context → Request → Option T × Option GoError

/-- Go `type AuthTokenRefiller interface`. -/
structure AuthTokenRefiller (T : Type) where
  ProcessAuthToken : Context → Option T → Option T × Option GoError

/-- Go `type DefaultAuthEngine struct`. -/
structure DefaultAuthEngine (A U T : Type) where
  AuthDataParser : AuthDataParser A
  UserDataProviders : List (UserDataProvider A U)
  Authenticator : Authenticator A U T
  AuthTokenSerializer : AuthTokenSerializer T
  HTTPAuthTokenSerializer : HTTPAuthTokenSerializer T

/-- Go `type DefaultSessionEngine struct`; `AuthTokenValidator` is `none` when the
field is `nil`, the one case the engine tests for. -/
structure DefaultSessionEngine (T : Type) where
  AuthTokenDeserializer : AuthTokenSerializer T
  HTTPAuthTokenDeserializer : HTTPAuthTokenSerializer T
  AuthTokenValidator : Option (AuthTokenValidator T)
  AuthTokenRefillers : List (AuthTokenRefiller T)

/-- A collaborator call of `DefaultAuthEngine`'s authentication methods, with its
arguments; `GetUserData i ad` is the call on `UserDataProviders[i]`. -/
inductive AuthCall (A U : Type) where
  | ParseAuthData (r : Request) : AuthCall A U
  | GetUserData (i : Nat) (ad : Option A) : AuthCall A U
  | Authenticate (ad : Option A) (ud : Option U) : AuthCall A U
  deriving DecidableEq, Repr

/-- A collaborator call of `DefaultSessionEngine`, with its arguments;
`ProcessAuthToken i tok` is the call on `AuthTokenRefillers[i]`. -/
inductive SessionCall (T : Type) where
  | DeserializeAuthToken (rat : Bytes) : SessionCall T
  | DeserializeAuthTokenFromRequest (r : Request) : SessionCall T
  | ValidatePreRefill (tok : Option T) : SessionCall T
  | ProcessAuthToken (i : Nat) (tok : Option T) : SessionCall T
  | ValidateAfterRefill (tok : Option T) : SessionCall T
  deriving DecidableEq, Repr

/-! ### `DefaultAuthEngine.AuthenticateAuthData` (engine.go 38-67) -/

/-- The code of `AuthenticateAuthData` after its loop: the `ud == nil` test and the
call of the authenticator.  The named result `at` is still `nil` in the first
branch; `err` is assigned on both. -/
def AuthenticateAuthData.afterLoop {A U T : Type} (dae : DefaultAuthEngine A U T) (ctx : Context)
    (ad : Option A) (ud : Option U) (calls : List (AuthCall A U)) :
    Outcome (Option T) (AuthCall A U) :=
  if ud.isNone then
    { val := none, err := some GoError.ErrNoUserData, calls := calls }
  else
    let r := dae.Authenticator.Authenticate ctx ad ud
    { val := r.1, err := r.2, calls := calls ++ [AuthCall.Authenticate ad ud] }

/-- The `for _, udp := range dae.UserDataProviders` loop of `AuthenticateAuthData`,
followed by the code after it.  `i` is the index of the next provider and `ud`
the variable declared before the loop. -/
def AuthenticateAuthData.loop {A U T : Type} (dae : DefaultAuthEngine A U T) (ctx : Context) (ad : Option A) :
    List (UserDataProvider A U) → Nat → Option U → List (AuthCall A U) →
      Outcome (Option T) (AuthCall A U)
  | [], _, ud, calls => AuthenticateAuthData.afterLoop dae ctx ad ud calls
  | udp :: rest, i, _, calls =>
      let r := udp.GetUserData ctx ad
      let ud := r.1
      let err := r.2
      let calls := calls ++ [AuthCall.GetUserData i ad]
      if errorsIs err GoError.ErrAuthDataNotSupported then
        AuthenticateAuthData.loop dae ctx ad rest (i + 1) none calls
      else if err.isSome then
        { val := none, err := err, calls := calls }
      else if ud.isSome then
        AuthenticateAuthData.afterLoop dae ctx ad ud calls
      else
        AuthenticateAuthData.loop dae ctx ad rest (i + 1) ud calls

/-- Go `(*DefaultAuthEngine).AuthenticateAuthData`. -/
def DefaultAuthEngine.AuthenticateAuthData {A U T : Type} (dae : DefaultAuthEngine A U T) (ctx : Context)
    (ad : Option A) : Outcome (Option T) (AuthCall A U) :=
  AuthenticateAuthData.loop dae ctx ad dae.UserDataProviders 0 none []

/-! ### `DefaultAuthEngine.AuthenticateRequest` (engine.go 70-104) -/

/-- The code of `AuthenticateRequest` after its loop. -/
def AuthenticateRequest.afterLoop {A U T : Type} (dae : DefaultAuthEngine A U T) (ctx : Context)
    (ad : Option A) (ud : Option U) (calls : List (AuthCall A U)) :
    Outcome (Option T) (AuthCall A U) :=
  if ud.isNone then
    { val := none, err := some GoError.ErrNoUserData, calls := calls }
  else
    let r := dae.Authenticator.Authenticate ctx ad ud
    { val := r.1, err := r.2, calls := calls ++ [AuthCall.Authenticate ad ud] }

/-- The provider loop of `AuthenticateRequest`, followed by the code after it. -/
def AuthenticateRequest.loop {A U T : Type} (dae : DefaultAuthEngine A U T) (ctx : Context) (ad : Option A) :
    List (UserDataProvider A U) → Nat → Option U → List (AuthCall A U) →
      Outcome (Option T) (AuthCall A U)
  | [], _, ud, calls => AuthenticateRequest.afterLoop dae ctx ad ud calls
  | udp :: rest, i, _, calls =>
      let r := udp.GetUserData ctx ad
      let ud := r.1
      let err := r.2
      let calls := calls ++ [AuthCall.GetUserData i ad]
      if errorsIs err GoError.ErrAuthDataNotSupported then
        AuthenticateRequest.loop dae ctx ad rest (i + 1) none calls
      else if err.isSome then
        { val := none, err := err, calls := calls }
      else if ud.isSome then
        AuthenticateRequest.afterLoop dae ctx ad ud calls
      else
        AuthenticateRequest.loop dae ctx ad rest (i + 1) ud calls

/-- Go `(*DefaultAuthEngine).AuthenticateRequest`.  The parser's `ad` is dropped when it
comes with an error: the method returns with `at` still `nil`. -/
def DefaultAuthEngine.AuthenticateRequest {A U T : Type} (dae : DefaultAuthEngine A U T) (ctx : Context)
    (r : Request) : Outcome (Option T) (AuthCall A U) :=
  let p := dae.AuthDataParser.ParseAuthData ctx r
  let ad := p.1
  let err := p.2
  let calls := [AuthCall.ParseAuthData r]
  if err.isSome then
    { val := none, err := err, calls := calls }
  else
    AuthenticateRequest.loop dae ctx ad dae.UserDataProviders 0 none calls

/-! ### `DefaultSessionEngine.GetRawAuthToken` (engine.go 175-209) -/

/-- The code of `GetRawAuthToken` after its loop.  `err` is the named result as the
loop left it: only a configured validator assigns it again. -/
def GetRawAuthToken.afterLoop {T : Type} (dse : DefaultSessionEngine T) (ctx : Context)
    (tok : Option T) (err : Option GoError) (calls : List (SessionCall T)) :
    Outcome (Option T) (SessionCall T) :=
  match dse.AuthTokenValidator with
  | some v =>
      let err := v.ValidateAfterRefill ctx tok
      { val := tok, err := err, calls := calls ++ [SessionCall.ValidateAfterRefill tok] }
  | none =>
      { val := tok, err := err, calls := calls }

/-- The `for _, atr := range dse.AuthTokenRefillers` loop of `GetRawAuthToken`,
followed by the code after it.  `tok` and `err` are the named results `at` and
`err`; `i` is the index of the next refiller. -/
def GetRawAuthToken.loop {T : Type} (dse : DefaultSessionEngine T) (ctx : Context) :
    List (AuthTokenRefiller T) → Nat → Option T → Option GoError → List (SessionCall T) →
      Outcome (Option T) (SessionCall T)
  | [], _, tok, err, calls => GetRawAuthToken.afterLoop dse ctx tok err calls
  | atr :: rest, i, tok, _, calls =>
      let r := atr.ProcessAuthToken ctx tok
      let nat := r.1
      let err := r.2
      let calls := calls ++ [SessionCall.ProcessAuthToken i tok]
      if errorsIs err GoError.ErrAuthDataNotSupported then
        GetRawAuthToken.loop dse ctx rest (i + 1) tok err calls
      else if err.isSome then
        { val := tok, err := err, calls := calls }
      else
        { val := nat, err := err, calls := calls }

/-- Go `(*DefaultSessionEngine).GetRawAuthToken`. -/
def DefaultSessionEngine.GetRawAuthToken {T : Type} (dse : DefaultSessionEngine T) (ctx : Context)
    (rat : Bytes) : Outcome (Option T) (SessionCall T) :=
  let d := dse.AuthTokenDeserializer.DeserializeAuthToken ctx rat
  let tok := d.1
  let err := d.2
  let calls := [SessionCall.DeserializeAuthToken rat]
  if err.isSome then
    { val := tok, err := err, calls := calls }
  else
    match dse.AuthTokenValidator with
    | some v =>
        let err := v.ValidatePreRefill ctx tok
        let calls := calls ++ [SessionCall.ValidatePreRefill tok]
        if err.isSome then
          { val := tok, err := err, calls := calls }
        else
          GetRawAuthToken.loop dse ctx dse.AuthTokenRefillers 0 tok err calls
    | none =>
        GetRawAuthToken.loop dse ctx dse.AuthTokenRefillers 0 tok err calls

/-! ### `DefaultSessionEngine.GetRequestAuthToken` (engine.go 138-172) -/

/-- The code of `GetRequestAuthToken` after its loop. -/
def GetRequestAuthToken.afterLoop {T : Type} (dse : DefaultSessionEngine T) (ctx : Context)
    (tok : Option T) (err : Option GoError) (calls : List (SessionCall T)) :
    Outcome (Option T) (SessionCall T) :=
  match dse.AuthTokenValidator with
  | some v =>
      let err := v.ValidateAfterRefill ctx tok
      { val := tok, err := err, calls := calls ++ [SessionCall.ValidateAfterRefill tok] }
  | none =>
      { val := tok, err := err, calls := calls }

/-- The refiller loop of `GetRequestAuthToken`, followed by the code after it. -/
def GetRequestAuthToken.loop {T : Type} (dse : DefaultSessionEngine T) (ctx : Context) :
    List (AuthTokenRefiller T) → Nat → Option T → Option GoError → List (SessionCall T) →
      Outcome (Option T) (SessionCall T)
  | [], _, tok, err, calls => GetRequestAuthToken.afterLoop dse ctx tok err calls
  | atr :: rest, i, tok, _, calls =>
      let r := atr.ProcessAuthToken ctx tok
      let nat := r.1
      let err := r.2
      let calls := calls ++ [SessionCall.ProcessAuthToken i tok]
      if errorsIs err GoError.ErrAuthDataNotSupported then
        GetRequestAuthToken.loop dse ctx rest (i + 1) tok err calls
      else if err.isSome then
        { val := tok, err := err, calls := calls }
      else
        { val := nat, err := err, calls := calls }

/-- Go `(*DefaultSessionEngine).GetRequestAuthToken`. -/
def DefaultSessionEngine.GetRequestAuthToken {T : Type} (dse : DefaultSessionEngine T) (ctx : Context)
    (r : Request) : Outcome (Option T) (SessionCall T) :=
  let d := dse.HTTPAuthTokenDeserializer.DeserializeAuthTokenFromRequest ctx r
  let tok := d.1
  let err := d.2
  let calls := [SessionCall.DeserializeAuthTokenFromRequest r]
  if err.isSome then
    { val := tok, err := err, calls := calls }
  else
    match dse.AuthTokenValidator with
    | some v =>
        let err := v.ValidatePreRefill ctx tok
        let calls := calls ++ [SessionCall.ValidatePreRefill tok]
        if err.isSome then
          { val := tok, err := err, calls := calls }
        else
          GetRequestAuthToken.loop dse ctx dse.AuthTokenRefillers 0 tok err calls
    | none =>
        GetRequestAuthToken.loop dse ctx dse.AuthTokenRefillers 0 tok err calls

/-! ### `AuthDataValidators` (auth_token.go 26-47) -/

/-- Go `type AuthDataValidators []AuthTokenValidator`. -/
abbrev AuthDataValidators (T : Type) := List (AuthTokenValidator T)

/-- A call of `AuthDataValidators` on one of its members; `ValidatePreRefill i tok` is
the call of `ValidatePreRefill(ctx, tok)` on the member of index `i`. -/
inductive ValidatorCall (T : Type) where
  | ValidatePreRefill (i : Nat) (tok : Option T) : ValidatorCall T
  | ValidateAfterRefill (i : Nat) (tok : Option T) : ValidatorCall T
  deriving DecidableEq, Repr

/-- The `for _, adv := range advs` loop of `AuthDataValidators.ValidatePreRefill` and
the `return` after it; `err` is the named result and `i` the index of the next
member. -/
def AuthDataValidators.ValidatePreRefill.loop {T : Type} (ctx : Context) (tok : Option T) :
    List (AuthTokenValidator T) → Nat → Option GoError → List (ValidatorCall T) →
      Outcome Unit (ValidatorCall T)
  | [], _, err, calls => { val := (), err := err, calls := calls }
  | adv :: rest, i, _, calls =>
      let err := adv.ValidatePreRefill ctx tok
      let calls := calls ++ [ValidatorCall.ValidatePreRefill i tok]
      if err.isSome then
        { val := (), err := err, calls := calls }
      else
        AuthDataValidators.ValidatePreRefill.loop ctx tok rest (i + 1) err calls

/-- Go method `AuthDataValidators.ValidatePreRefill`. -/
def AuthDataValidators.ValidatePreRefill {T : Type} (advs : AuthDataValidators T)
    (ctx : Context) (tok : Option T) : Outcome Unit (ValidatorCall T) :=
  AuthDataValidators.ValidatePreRefill.loop ctx tok advs 0 none []

/-- The `for _, adv := range advs` loop of `AuthDataValidators.ValidateAfterRefill` and
the `return` after it. -/
def AuthDataValidators.ValidateAfterRefill.loop {T : Type} (ctx : Context) (tok : Option T) :
    List (AuthTokenValidator T) → Nat → Option GoError → List (ValidatorCall T) →
      Outcome Unit (ValidatorCall T)
  | [], _, err, calls => { val := (), err := err, calls := calls }
  | adv :: rest, i, _, calls =>
      let err := adv.ValidateAfterRefill ctx tok
      let calls := calls ++ [ValidatorCall.ValidateAfterRefill i tok]
      if err.isSome then
        { val := (), err := err, calls := calls }
      else
        AuthDataValidators.ValidateAfterRefill.loop ctx tok rest (i + 1) err calls

/-- Go method `AuthDataValidators.ValidateAfterRefill`. -/
def AuthDataValidators.ValidateAfterRefill {T : Type} (advs : AuthDataValidators T)
    (ctx : Context) (tok : Option T) : Outcome Unit (ValidatorCall T) :=
  AuthDataValidators.ValidateAfterRefill.loop ctx tok advs 0 none []

/-- An `AuthDataValidators` value used where an `AuthTokenValidator` is expected. -/
def AuthDataValidators.toValidator {T : Type} (advs : AuthDataValidators T) :
    AuthTokenValidator T :=
  { ValidatePreRefill := fun ctx tok => (AuthDataValidators.ValidatePreRefill advs ctx tok).err,
    ValidateAfterRefill := fun ctx tok =>
      (AuthDataValidators.ValidateAfterRefill advs ctx tok).err }

/-! ### Serialization (engine.go 106-126) -/

/-- Go `type HasSecretInfo interface`, as the dynamic token values implement it:
`StripSecretInfo x` is `none` when the type of `x` has no method `StripSecretInfo`,
so that the assertion `at.(HasSecretInfo)` fails, and otherwise the value the token
holds once the method has returned. -/
structure HasSecretInfo (T : Type) where
  StripSecretInfo : T → Option T

/-- A call made by the serialization methods of `DefaultAuthEngine`, with its
arguments: `StripSecretInfo x` is the call on the token holding `x`. -/
inductive SerializeCall (T : Type) where
  | StripSecretInfo (x : T) : SerializeCall T
  | SerializeAuthToken (tok : Option T) : SerializeCall T
  | SerializeAuthTokenToResponse (tok : Option T) (w : ResponseWriter) : SerializeCall T
  deriving DecidableEq, Repr

/-- Go method `(*DefaultAuthEngine).SerializerAuthToken`.  The assertion
`at.(HasSecretInfo)` fails on the `nil` token. -/
def DefaultAuthEngine.SerializerAuthToken {A U T : Type} (dae : DefaultAuthEngine A U T)
    (hsi : HasSecretInfo T) (ctx : Context) (tok : Option T) :
    Outcome Bytes (SerializeCall T) :=
  let s : Option T × List (SerializeCall T) :=
    match tok with
    | some x =>
        match hsi.StripSecretInfo x with
        | some x' => (some x', [SerializeCall.StripSecretInfo x])
        | none => (tok, [])
    | none => (tok, [])
  let r := dae.AuthTokenSerializer.SerializeAuthToken ctx s.1
  { val := r.1, err := r.2, calls := s.2 ++ [SerializeCall.SerializeAuthToken s.1] }

/-- Go method `(*DefaultAuthEngine).SerializeAuthTokenToResponse`; the value is the
response writer as the serializer left it. -/
def DefaultAuthEngine.SerializeAuthTokenToResponse {A U T : Type}
    (dae : DefaultAuthEngine A U T) (hsi : HasSecretInfo T) (ctx : Context) (tok : Option T)
    (w : ResponseWriter) : Outcome ResponseWriter (SerializeCall T) :=
  let s : Option T × List (SerializeCall T) :=
    match tok with
    | some x =>
        match hsi.StripSecretInfo x with
        | some x' => (some x', [SerializeCall.StripSecretInfo x])
        | none => (tok, [])
    | none => (tok, [])
  let r := dae.HTTPAuthTokenSerializer.SerializeAuthTokenToResponse ctx s.1 w
  { val := r.1, err := r.2,
    calls := s.2 ++ [SerializeCall.SerializeAuthTokenToResponse s.1 w] }

/-! ### Auxiliary definitions for the loops of the engines -/

/-- The provider declines: `errors.Is(err, ErrAuthDataNotSupported)` holds of its error. -/
def UserDataProvider.declines {A U : Type} (udp : UserDataProvider A U) (ctx : Context)
    (ad : Option A) : Prop :=
  errorsIs (udp.GetUserData ctx ad).2 GoError.ErrAuthDataNotSupported = true

/-- The provider produces no user data and the loop goes on: it declines, or it
returns `nil` user data with a `nil` error. -/
def UserDataProvider.yieldsNothing {A U : Type} (udp : UserDataProvider A U) (ctx : Context)
    (ad : Option A) : Prop :=
  udp.declines ctx ad ∨ udp.GetUserData ctx ad = (none, none)

/-- The calls `GetUserData(ctx, ad)` on the providers of index `i`, ..., `i + n - 1`. -/
def getUserDataCalls {A : Type} (U : Type) (ad : Option A) (i n : Nat) : List (AuthCall A U) :=
  (List.range' i n).map (fun j => AuthCall.GetUserData j ad)

/-- The refiller declines: `errors.Is(err, ErrAuthDataNotSupported)` holds of its error. -/
def AuthTokenRefiller.declines {T : Type} (atr : AuthTokenRefiller T) (ctx : Context)
    (tok : Option T) : Prop :=
  errorsIs (atr.ProcessAuthToken ctx tok).2 GoError.ErrAuthDataNotSupported = true

/-- The calls `ProcessAuthToken(ctx, tok)` on the refillers of index `i`, ..., `i + n - 1`. -/
def processAuthTokenCalls {T : Type} (tok : Option T) (i n : Nat) : List (SessionCall T) :=
  (List.range' i n).map (fun j => SessionCall.ProcessAuthToken j tok)

/-- The value of the variable `err` after the refillers `pre` have been called on `tok`,
starting from `err`: the error of the last of them. -/
def errAfterRefillers {T : Type} (ctx : Context) (tok : Option T) (err : Option GoError)
    (pre : List (AuthTokenRefiller T)) : Option GoError :=
  pre.foldl (fun _ atr => (atr.ProcessAuthToken ctx tok).2) err

/-- Pre-refill validation succeeds on `tok`: no validator is configured, or the
configured one returns `nil`. -/
def preRefillPasses {T : Type} (dse : DefaultSessionEngine T) (ctx : Context)
    (tok : Option T) : Prop :=
  ∀ v, dse.AuthTokenValidator = some v → v.ValidatePreRefill ctx tok = none

/-- The call of `ValidatePreRefill` on `tok`, made when a validator is configured. -/
def preRefillCalls {T : Type} (dse : DefaultSessionEngine T) (tok : Option T) :
    List (SessionCall T) :=
  match dse.AuthTokenValidator with
  | some _ => [SessionCall.ValidatePreRefill tok]
  | none => []

/-- The calls `ValidatePreRefill(ctx, tok)` on the members of index `i`, ..., `i + n - 1`
of an `AuthDataValidators`. -/
def validatePreRefillCalls {T : Type} (tok : Option T) (i n : Nat) : List (ValidatorCall T) :=
  (List.range' i n).map (fun j => ValidatorCall.ValidatePreRefill j tok)

/-- The calls `ValidateAfterRefill(ctx, tok)` on the members of index `i`, ...,
`i + n - 1` of an `AuthDataValidators`. -/
def validateAfterRefillCalls {T : Type} (tok : Option T) (i n : Nat) :
    List (ValidatorCall T) :=
  (List.range' i n).map (fun j => ValidatorCall.ValidateAfterRefill j tok)

/-- The configured validator accepts `tok` at both checkpoints, or none is configured. -/
def validatorAccepts {T : Type} (dse : DefaultSessionEngine T) (ctx : Context)
    (tok : Option T) : Prop :=
  ∀ v, dse.AuthTokenValidator = some v →
    v.ValidatePreRefill ctx tok = none ∧ v.ValidateAfterRefill ctx tok = none

/-! ### Concrete collaborators and configurations

Dynamic values are natural numbers here: user data `42` stands for
`UserData{ID: "42"}`. -/

namespace Example

/-- The context of the examples. -/
def ctx : Context := { id := 0 }

/-- A voter returning the vote `vr` and a `nil` error on every check. -/
def constVoter (vr : Perm.VoterResult) : Perm.Voter Nat :=
  { VoteOnAccess := fun _ _ => (vr, none) }

/-- A voter returning the zero result and the error `e` on every check. -/
def failingVoter (e : GoError) : Perm.Voter Nat :=
  { VoteOnAccess := fun _ _ => (0, some e) }

/-- Go `Check{Permission: "edit", User: U, Subject: S}`. -/
def editCheck : Perm.Check Nat :=
  { Permission := "edit", User := some 1, Subject := some 2 }

/-- Voters `owner` (votes `VoterNoSupport`) and `admin` (votes `VoterAgree`). -/
def ownerAdmin : Perm.DefaultManager Nat :=
  { Voters := [{ Voter := constVoter Perm.VoterNoSupport, Name := "owner" },
               { Voter := constVoter Perm.VoterAgree, Name := "admin" }] }

/-- Voters `a` (agrees), `b` (denies) and `c` (agrees). -/
def agreeDenyAgree : Perm.DefaultManager Nat :=
  { Voters := [{ Voter := constVoter Perm.VoterAgree, Name := "a" },
               { Voter := constVoter Perm.VoterDeny, Name := "b" },
               { Voter := constVoter Perm.VoterAgree, Name := "c" }] }

/-- Voters `a` (agrees), `b` (fails) and `c` (agrees). -/
def agreeFailAgree : Perm.DefaultManager Nat :=
  { Voters := [{ Voter := constVoter Perm.VoterAgree, Name := "a" },
               { Voter := failingVoter (GoError.errorString "voter b failed"), Name := "b" },
               { Voter := constVoter Perm.VoterAgree, Name := "c" }] }

/-- A provider that declines every credential with `ErrAuthDataNotSupported`. -/
def unsupportedProvider : UserDataProvider Nat Nat :=
  { GetUserData := fun _ _ => (none, some GoError.ErrAuthDataNotSupported) }

/-- A provider that returns the user data `u` for every credential. -/
def constProvider (u : Nat) : UserDataProvider Nat Nat :=
  { GetUserData := fun _ _ => (some u, none) }

/-- A provider that returns `nil` user data and a `nil` error. -/
def nilProvider : UserDataProvider Nat Nat :=
  { GetUserData := fun _ _ => (none, none) }

/-- A provider that fails with the error `e`. -/
def failingProvider (e : GoError) : UserDataProvider Nat Nat :=
  { GetUserData := fun _ _ => (none, some e) }

/-- A parser that reads the credential `r.id` off the request. -/
def idParser : AuthDataParser Nat :=
  { ParseAuthData := fun _ r => (some r.id, none) }

/-- An authenticator whose token is the user data it is given. -/
def idAuthenticator : Authenticator Nat Nat Nat :=
  { Authenticate := fun _ _ ud => (ud, none) }

/-- An authenticator that returns the token `7` together with an error. -/
def tokenAndErrorAuthenticator : Authenticator Nat Nat Nat :=
  { Authenticate := fun _ _ _ => (some 7, some (GoError.errorString "authenticator failed")) }

/-- A serializer whose byte string is empty and which deserializes every byte string
to the token `5`. -/
def fixedSerializer : AuthTokenSerializer Nat :=
  { SerializeAuthToken := fun _ _ => ([], none),
    DeserializeAuthToken := fun _ _ => (some 5, none) }

/-- An HTTP serializer that writes nothing and deserializes every request to the
token `5`. -/
def fixedHTTPSerializer : HTTPAuthTokenSerializer Nat :=
  { SerializeAuthTokenToResponse := fun _ _ w => (w, none),
    DeserializeAuthTokenFromRequest := fun _ _ => (some 5, none) }

/-- An auth engine with the given providers and authenticator. -/
def authEngine (ps : List (UserDataProvider Nat Nat)) (a : Authenticator Nat Nat Nat) :
    DefaultAuthEngine Nat Nat Nat :=
  { AuthDataParser := idParser, UserDataProviders := ps, Authenticator := a,
    AuthTokenSerializer := fixedSerializer, HTTPAuthTokenSerializer := fixedHTTPSerializer }

/-- Providers P1 (unsupported), P2 (returns user data 42) and P3 (would return 99). -/
def threeProviders : DefaultAuthEngine Nat Nat Nat :=
  authEngine [unsupportedProvider, constProvider 42, constProvider 99] idAuthenticator

/-- A refiller that declines every token with `ErrAuthDataNotSupported`. -/
def decliningRefiller : AuthTokenRefiller Nat :=
  { ProcessAuthToken := fun _ _ => (none, some GoError.ErrAuthDataNotSupported) }

/-- A refiller that replaces every token by the token `t`. -/
def replacingRefiller (t : Nat) : AuthTokenRefiller Nat :=
  { ProcessAuthToken := fun _ _ => (some t, none) }

/-- A validator that accepts before the refill and rejects every token after it. -/
def rejectAfterRefill : AuthTokenValidator Nat :=
  { ValidatePreRefill := fun _ _ => none,
    ValidateAfterRefill := fun _ _ => some (GoError.errorString "token expired") }

/-- A session engine with the given validator and refillers. -/
def sessionEngine (v : Option (AuthTokenValidator Nat)) (rs : List (AuthTokenRefiller Nat)) :
    DefaultSessionEngine Nat :=
  { AuthTokenDeserializer := fixedSerializer, HTTPAuthTokenDeserializer := fixedHTTPSerializer,
    AuthTokenValidator := v, AuthTokenRefillers := rs }

/-- Voters `z` (returns the zero result with a nil error) and `a` (agrees). -/
def zeroThenAgree : Perm.DefaultManager Nat :=
  { Voters := [{ Voter := constVoter 0, Name := "z" },
               { Voter := constVoter Perm.VoterAgree, Name := "a" }] }

/-- Token values: an even number carries secret info and `StripSecretInfo` turns it
into the next odd number; an odd number has no such method. -/
def evenHasSecret : HasSecretInfo Nat :=
  { StripSecretInfo := fun x => if x % 2 = 0 then some (x + 1) else none }

/-- A serializer that writes the token as one byte (`0` for the `nil` token) and reads
a byte string back as the token of its first byte. -/
def byteSerializer : AuthTokenSerializer Nat :=
  { SerializeAuthToken := fun _ tok =>
      match tok with
      | some x => ([Fin.ofNat x], none)
      | none => ([], some (GoError.errorString "no token")),
    DeserializeAuthToken := fun _ data =>
      match data with
      | b :: _ => (some b.val, none)
      | [] => (none, some (GoError.errorString "no data")) }

/-- An auth engine serializing with `byteSerializer`. -/
def byteAuthEngine : DefaultAuthEngine Nat Nat Nat :=
  { AuthDataParser := idParser, UserDataProviders := [], Authenticator := idAuthenticator,
    AuthTokenSerializer := byteSerializer, HTTPAuthTokenSerializer := fixedHTTPSerializer }

/-- A session engine deserializing with `byteSerializer`. -/
def byteSessionEngine (v : Option (AuthTokenValidator Nat))
    (rs : List (AuthTokenRefiller Nat)) : DefaultSessionEngine Nat :=
  { AuthTokenDeserializer := byteSerializer, HTTPAuthTokenDeserializer := fixedHTTPSerializer,
    AuthTokenValidator := v, AuthTokenRefillers := rs }

/-- A validator that accepts every token at both checkpoints. -/
def acceptAll : AuthTokenValidator Nat :=
  { ValidatePreRefill := fun _ _ => none, ValidateAfterRefill := fun _ _ => none }

/-- A validator that rejects every token before the refill with the error `e`. -/
def rejectPreRefill (e : GoError) : AuthTokenValidator Nat :=
  { ValidatePreRefill := fun _ _ => some e, ValidateAfterRefill := fun _ _ => none }

/-- A refiller that fails on every token with the error `e`. -/
def failingRefiller (e : GoError) : AuthTokenRefiller Nat :=
  { ProcessAuthToken := fun _ _ => (none, some e) }

/-- A serializer whose deserialization fails with the error `e`. -/
def brokenSerializer (e : GoError) : AuthTokenSerializer Nat :=
  { SerializeAuthToken := fun _ _ => ([], none),
    DeserializeAuthToken := fun _ _ => (none, some e) }

/-- An HTTP serializer whose deserialization fails with the error `e`. -/
def brokenHTTPSerializer (e : GoError) : HTTPAuthTokenSerializer Nat :=
  { SerializeAuthTokenToResponse := fun _ _ w => (w, none),
    DeserializeAuthTokenFromRequest := fun _ _ => (none, some e) }

/-- A parser that fails on every request with the error `e`. -/
def failingParser (e : GoError) : AuthDataParser Nat :=
  { ParseAuthData := fun _ _ => (none, some e) }

end Example

namespace Perm

/-! ## Lemmas on `CheckPermission` -/

theorem VoterResultMap_get?_set (m : VoterResultMap) (k k' : String) (v : VoterResult) :
    (m.set k v).get? k' = if k' = k then some v else m.get? k' := by
  unfold VoterResultMap.set VoterResultMap.get?
  induction m with
  | nil =>
    by_cases h : k' = k
    · subst h; simp [List.lookup]
    · have : (k' == k) = false := by simpa using h
      simp [List.lookup, this, h]
  | cons e m ih =>
    obtain ⟨a, b⟩ := e
    by_cases hak : a = k
    · subst hak
      simp only [List.filter, bne_self_eq_false]
      rw [ih]
      by_cases h : k' = a
      · simp [h]
      · have : (k' == a) = false := by simpa using h
        simp [List.lookup, this, h]
    · have hne : (a != k) = true := by simpa using hak
      simp only [List.filter, hne, List.cons_append, List.lookup]
      by_cases h : k' = a
      · subst h
        simp [hak]
      · have : (k' == a) = false := by simpa using h
        simp only [this]
        exact ih

theorem CheckPermission_loop_passes {V : Type} (ctx : Context) (c : Check V)
    (pre rest : List (NamedVoter V)) (hpre : ∀ v ∈ pre, v.passes ctx c) :
    ∀ (i : Nat) (res : CheckResult V) (agreed : Nat) (calls : List Nat),
      CheckPermission.loop ctx c (pre ++ rest) i res agreed calls =
        CheckPermission.loop ctx c rest (i + pre.length) (recordVotes ctx c res pre)
          (agreed + pre.countP (fun v => decide (v.vote ctx c = VoterAgree)))
          (calls ++ List.range' i pre.length) := by
  induction pre with
  | nil => intro i res agreed calls; simp [recordVotes]
  | cons v pre ih =>
    intro i res agreed calls
    have hv := hpre v (List.mem_cons_self _ _)
    have ih' := ih (fun w hw => hpre w (List.mem_cons_of_mem _ hw))
    obtain ⟨he, hd⟩ := hv
    simp only [NamedVoter.voteErr, NamedVoter.vote] at he hd
    by_cases ha : (v.Voter.VoteOnAccess ctx c).1 = VoterAgree
    · rw [List.cons_append]
      simp only [CheckPermission.loop, he, Option.isSome_none, ha,
        Bool.false_eq_true, if_false, if_true]
      rw [ih']
      simp [recordVotes, NamedVoter.vote, ha, List.range'_succ, Nat.add_assoc, Nat.add_comm 1,
        List.countP_cons]
    · rw [List.cons_append]
      simp only [CheckPermission.loop, he, Option.isSome_none, ha, hd,
        Bool.false_eq_true, if_false]
      rw [ih']
      simp [recordVotes, NamedVoter.vote, ha, List.range'_succ, Nat.add_assoc, Nat.add_comm 1,
        List.countP_cons]

theorem recordVotes_eq {V : Type} (ctx : Context) (c : Check V) (vs : List (NamedVoter V)) :
    ∀ res : CheckResult V, recordVotes ctx c res vs =
      { res with VoterResults := res.VoterResults.map (fun m => recordMap ctx c m vs) } := by
  induction vs with
  | nil => intro res; cases res with
    | mk a b c d e => cases e <;> simp [recordVotes, recordMap]
  | cons v vs ih =>
    intro res
    have h := ih { res with
      VoterResults := res.VoterResults.map (fun m => m.set v.Name (v.vote ctx c)) }
    simp only [recordVotes, List.foldl_cons] at h ⊢
    rw [h]
    cases res with
    | mk a b c d e => cases e <;> simp [recordMap]

theorem recordVotes_initial {V : Type} (ctx : Context) (c : Check V) (vs : List (NamedVoter V)) :
    recordVotes ctx c (initialResult V) vs =
      { IsAllowed := false, Permission := "", User := none, Subject := none,
        VoterResults := some (recordMap ctx c [] vs) } := by
  rw [recordVotes_eq]; rfl

theorem recordMap_get?_of_not_mem {V : Type} (ctx : Context) (c : Check V)
    (vs : List (NamedVoter V)) (name : String) (hn : name ∉ vs.map (fun v => v.Name)) :
    ∀ m : VoterResultMap, (recordMap ctx c m vs).get? name = m.get? name := by
  induction vs with
  | nil => intro m; rfl
  | cons v vs ih =>
    intro m
    simp only [List.map_cons, List.mem_cons, not_or] at hn
    have h := ih hn.2 (m.set v.Name (v.vote ctx c))
    simp only [recordMap, List.foldl_cons] at h ⊢
    rw [h, VoterResultMap_get?_set, if_neg hn.1]

theorem recordMap_get?_of_mem {V : Type} (ctx : Context) (c : Check V)
    (vs : List (NamedVoter V)) (hnd : (vs.map (fun v => v.Name)).Nodup) (v : NamedVoter V)
    (hv : v ∈ vs) :
    ∀ m : VoterResultMap, (recordMap ctx c m vs).get? v.Name = some (v.vote ctx c) := by
  induction vs with
  | nil => simp at hv
  | cons w vs ih =>
    intro m
    simp only [List.map_cons, List.nodup_cons] at hnd
    rcases List.mem_cons.mp hv with h | h
    · subst h
      have h1 := recordMap_get?_of_not_mem ctx c vs v.Name hnd.1 (m.set v.Name (v.vote ctx c))
      simp only [recordMap, List.foldl_cons] at h1 ⊢
      rw [h1, VoterResultMap_get?_set, if_pos rfl]
    · have h1 := ih hnd.2 h (m.set w.Name (w.vote ctx c))
      simpa only [recordMap, List.foldl_cons] using h1

theorem VoterResultMap_set_of_not_mem (m : VoterResultMap) (k : String) (v : VoterResult)
    (hk : k ∉ m.map (fun e => e.1)) : m.set k v = m ++ [(k, v)] := by
  unfold VoterResultMap.set
  congr 1
  rw [List.filter_eq_self]
  intro e he
  have : e.1 ≠ k := fun h => hk (List.mem_map.mpr ⟨e, he, h⟩)
  simpa using this

theorem recordMap_of_nodup {V : Type} (ctx : Context) (c : Check V)
    (vs : List (NamedVoter V)) :
    ∀ m : VoterResultMap, (m.map (fun e => e.1) ++ vs.map (fun v => v.Name)).Nodup →
      recordMap ctx c m vs = m ++ vs.map (fun v => (v.Name, v.vote ctx c)) := by
  induction vs with
  | nil => intro m _; simp [recordMap]
  | cons v vs ih =>
    intro m hnd
    have hk : v.Name ∉ m.map (fun e => e.1) := by
      intro hmem
      have := List.nodup_append.mp hnd
      exact this.2.2 hmem (by simp)
    have hset := VoterResultMap_set_of_not_mem m v.Name (v.vote ctx c) hk
    have hnd' : ((m ++ [(v.Name, v.vote ctx c)]).map (fun e => e.1) ++
        vs.map (fun v => v.Name)).Nodup := by
      simpa using hnd
    have h := ih (m ++ [(v.Name, v.vote ctx c)]) hnd'
    simp only [recordMap, List.foldl_cons] at h ⊢
    rw [hset, h]
    simp

theorem recordMap_size {V : Type} (ctx : Context) (c : Check V)
    (vs : List (NamedVoter V)) (hnd : (vs.map (fun v => v.Name)).Nodup) :
    (recordMap ctx c [] vs).size = vs.length := by
  rw [recordMap_of_nodup ctx c vs [] (by simpa using hnd)]
  simp [VoterResultMap.size]

/-- Every voter passes: the loop runs to its end. -/
theorem CheckPermission_of_all_pass {V : Type} (dm : DefaultManager V) (ctx : Context)
    (c : Check V) (h : ∀ v ∈ dm.Voters, v.passes ctx c) :
    dm.CheckPermission ctx c =
      { val := { recordVotes ctx c (initialResult V) dm.Voters with
                  IsAllowed := decide (agreeCount ctx c dm.Voters > 0) },
        err := none,
        calls := List.range' 0 dm.Voters.length } := by
  have hl := CheckPermission_loop_passes ctx c dm.Voters [] h 0 (initialResult V) 0 []
  rw [List.append_nil] at hl
  unfold DefaultManager.CheckPermission
  show CheckPermission.loop ctx c dm.Voters 0 (initialResult V) 0 [] = _
  rw [hl, recordVotes_initial]
  by_cases hc : agreeCount ctx c dm.Voters > 0
  · have hc' : List.countP (fun v => decide (v.vote ctx c = VoterAgree)) dm.Voters > 0 := hc
    simp [CheckPermission.loop, hc, hc']
  · have hc' : ¬ List.countP (fun v => decide (v.vote ctx c = VoterAgree)) dm.Voters > 0 := hc
    simp only [CheckPermission.loop, Nat.zero_add, hc', if_false, List.nil_append]
    simp [hc]

/-- The first voter that does not pass denies: the loop returns at it. -/
theorem CheckPermission_of_deny {V : Type} (dm : DefaultManager V) (ctx : Context)
    (c : Check V) (pre post : List (NamedVoter V)) (d : NamedVoter V)
    (hs : dm.Voters = pre ++ d :: post) (hpre : ∀ v ∈ pre, v.passes ctx c)
    (he : d.voteErr ctx c = none) (hd : d.vote ctx c = VoterDeny) :
    dm.CheckPermission ctx c =
      { val := recordVotes ctx c (initialResult V) (pre ++ [d]),
        err := none,
        calls := List.range' 0 (pre.length + 1) } := by
  have hl := CheckPermission_loop_passes ctx c pre (d :: post) hpre 0 (initialResult V) 0 []
  unfold DefaultManager.CheckPermission
  show CheckPermission.loop ctx c dm.Voters 0 (initialResult V) 0 [] = _
  rw [hs, hl]
  simp only [NamedVoter.voteErr, NamedVoter.vote] at he hd
  have hna : ¬ (VoterDeny = VoterAgree) := by decide
  simp only [CheckPermission.loop, he, hd, Option.isSome_none, Bool.false_eq_true, if_false,
    hna, if_true, Nat.zero_add, List.nil_append]
  simp [recordVotes, NamedVoter.vote, hd, List.range'_concat]

/-- The first voter that does not pass fails: the loop returns at it. -/
theorem CheckPermission_of_error {V : Type} (dm : DefaultManager V) (ctx : Context)
    (c : Check V) (pre post : List (NamedVoter V)) (v : NamedVoter V) (e : GoError)
    (hs : dm.Voters = pre ++ v :: post) (hpre : ∀ w ∈ pre, w.passes ctx c)
    (he : v.voteErr ctx c = some e) :
    dm.CheckPermission ctx c =
      { val := recordVotes ctx c (initialResult V) pre,
        err := some e,
        calls := List.range' 0 (pre.length + 1) } := by
  have hl := CheckPermission_loop_passes ctx c pre (v :: post) hpre 0 (initialResult V) 0 []
  unfold DefaultManager.CheckPermission
  show CheckPermission.loop ctx c dm.Voters 0 (initialResult V) 0 [] = _
  rw [hs, hl]
  simp only [NamedVoter.voteErr] at he
  simp [CheckPermission.loop, he, List.range'_concat]

/-- A list either satisfies `p` throughout or splits at the first element failing `p`. -/
theorem split_at_first_failing {α : Type} (p : α → Prop) (l : List α) :
    (∀ x ∈ l, p x) ∨
      ∃ pre x post, l = pre ++ x :: post ∧ (∀ y ∈ pre, p y) ∧ ¬ p x := by
  induction l with
  | nil => left; simp
  | cons a l ih =>
    by_cases ha : p a
    · rcases ih with h | ⟨pre, x, post, hl, hpre, hx⟩
      · left
        intro y hy
        rcases List.mem_cons.mp hy with h1 | h1
        · exact h1 ▸ ha
        · exact h y h1
      · right
        refine ⟨a :: pre, x, post, by simp [hl], ?_, hx⟩
        intro y hy
        rcases List.mem_cons.mp hy with h1 | h1
        · exact h1 ▸ ha
        · exact hpre y h1
    · right
      exact ⟨[], a, l, rfl, by simp, ha⟩

/-- The error, the decision and the calls of the loop do not depend on the audit map
the loop starts with. -/
theorem CheckPermission_loop_decision {V : Type} (ctx : Context) (c : Check V)
    (vs : List (NamedVoter V)) :
    ∀ (i : Nat) (res res' : CheckResult V) (agreed : Nat) (calls : List Nat),
      res.IsAllowed = res'.IsAllowed →
      (CheckPermission.loop ctx c vs i res agreed calls).err =
          (CheckPermission.loop ctx c vs i res' agreed calls).err ∧
      (CheckPermission.loop ctx c vs i res agreed calls).val.IsAllowed =
          (CheckPermission.loop ctx c vs i res' agreed calls).val.IsAllowed ∧
      (CheckPermission.loop ctx c vs i res agreed calls).calls =
          (CheckPermission.loop ctx c vs i res' agreed calls).calls := by
  induction vs with
  | nil =>
    intro i res res' agreed calls h
    simp only [CheckPermission.loop]
    split <;> simp [h]
  | cons v vs ih =>
    intro i res res' agreed calls h
    simp only [CheckPermission.loop]
    split
    · exact ⟨rfl, h, rfl⟩
    · split
      · exact ih _ _ _ _ _ h
      · split
        · exact ⟨rfl, h, rfl⟩
        · exact ih _ _ _ _ _ h

/-- Two voter lists that differ in one voter, which returns a nil error and a vote
other than `VoterAgree` and `VoterDeny` in both, give the same error, decision and
calls. -/
theorem CheckPermission_loop_swap {V : Type} (ctx : Context) (c : Check V)
    (pre post : List (NamedVoter V)) (z n : NamedVoter V)
    (hz : z.voteErr ctx c = none) (hza : z.vote ctx c ≠ VoterAgree)
    (hzd : z.vote ctx c ≠ VoterDeny)
    (hn : n.voteErr ctx c = none) (hna : n.vote ctx c ≠ VoterAgree)
    (hnd : n.vote ctx c ≠ VoterDeny) :
    ∀ (i : Nat) (res res' : CheckResult V) (agreed : Nat) (calls : List Nat),
      res.IsAllowed = res'.IsAllowed →
      (CheckPermission.loop ctx c (pre ++ z :: post) i res agreed calls).err =
          (CheckPermission.loop ctx c (pre ++ n :: post) i res' agreed calls).err ∧
      (CheckPermission.loop ctx c (pre ++ z :: post) i res agreed calls).val.IsAllowed =
          (CheckPermission.loop ctx c (pre ++ n :: post) i res' agreed calls).val.IsAllowed ∧
      (CheckPermission.loop ctx c (pre ++ z :: post) i res agreed calls).calls =
          (CheckPermission.loop ctx c (pre ++ n :: post) i res' agreed calls).calls := by
  simp only [NamedVoter.voteErr, NamedVoter.vote] at hz hza hzd hn hna hnd
  induction pre with
  | nil =>
    intro i res res' agreed calls h
    simp only [List.nil_append, CheckPermission.loop, hz, hn, hza, hzd, hna, hnd,
      Option.isSome_none, Bool.false_eq_true, if_false]
    exact CheckPermission_loop_decision ctx c post _ _ _ _ _ h
  | cons v pre ih =>
    intro i res res' agreed calls h
    rw [List.cons_append, List.cons_append]
    simp only [CheckPermission.loop]
    split
    · exact ⟨rfl, h, rfl⟩
    · split
      · exact ih _ _ _ _ _ h
      · split
        · exact ⟨rfl, h, rfl⟩
        · exact ih _ _ _ _ _ h

/-- No voter returns an error: `CheckPermission` returns a nil error. -/
theorem CheckPermission_err_of_no_error {V : Type} (dm : DefaultManager V) (ctx : Context)
    (c : Check V) (hne : ∀ v ∈ dm.Voters, v.voteErr ctx c = none) :
    (dm.CheckPermission ctx c).err = none := by
  rcases split_at_first_failing (fun v => v.passes ctx c) dm.Voters with
    hall | ⟨pre, d, post, hs, hpre, hd⟩
  · rw [CheckPermission_of_all_pass dm ctx c hall]
  · have hd1 : d.voteErr ctx c = none := hne d (by rw [hs]; simp)
    have hd2 : d.vote ctx c = VoterDeny := by
      by_contra hcon
      exact hd ⟨hd1, hcon⟩
    rw [CheckPermission_of_deny dm ctx c pre post d hs hpre hd1 hd2]

/-- The loop leaves `Permission`, `User` and `Subject` of the named result as they are
and keeps an allocated audit map allocated. -/
theorem CheckPermission_loop_fields {V : Type} (ctx : Context) (c : Check V)
    (vs : List (NamedVoter V)) :
    ∀ (i : Nat) (res : CheckResult V) (agreed : Nat) (calls : List Nat),
      (CheckPermission.loop ctx c vs i res agreed calls).val.Permission = res.Permission ∧
      (CheckPermission.loop ctx c vs i res agreed calls).val.User = res.User ∧
      (CheckPermission.loop ctx c vs i res agreed calls).val.Subject = res.Subject ∧
      (res.VoterResults.isSome = true →
        (CheckPermission.loop ctx c vs i res agreed calls).val.VoterResults.isSome = true) := by
  induction vs with
  | nil =>
    intro i res agreed calls
    simp only [CheckPermission.loop]
    split <;> exact ⟨rfl, rfl, rfl, fun h => h⟩
  | cons v vs ih =>
    intro i res agreed calls
    simp only [CheckPermission.loop]
    split
    · exact ⟨rfl, rfl, rfl, fun h => h⟩
    · split
      · have h := ih (i + 1)
          (CheckResult.mk res.IsAllowed res.Permission res.User res.Subject
            (Option.map (fun m => m.set v.Name (v.Voter.VoteOnAccess ctx c).1)
              res.VoterResults))
          (agreed + 1) (calls ++ [i])
        exact ⟨h.1, h.2.1, h.2.2.1, fun hs => h.2.2.2 (by simpa using hs)⟩
      · split
        · exact ⟨rfl, rfl, rfl, fun hs => by simpa using hs⟩
        · have h := ih (i + 1)
            (CheckResult.mk res.IsAllowed res.Permission res.User res.Subject
              (Option.map (fun m => m.set v.Name (v.Voter.VoteOnAccess ctx c).1)
                res.VoterResults))
            agreed (calls ++ [i])
          exact ⟨h.1, h.2.1, h.2.2.1, fun hs => h.2.2.2 (by simpa using hs)⟩

/-- The loop leaves the entry of a name that none of its voters bears as it is. -/
theorem CheckPermission_loop_entry_of_not_mem {V : Type} (ctx : Context) (c : Check V)
    (name : String) (vs : List (NamedVoter V)) (hn : name ∉ vs.map (fun v => v.Name)) :
    ∀ (i : Nat) (res : CheckResult V) (agreed : Nat) (calls : List Nat),
      (CheckPermission.loop ctx c vs i res agreed calls).val.entry name = res.entry name := by
  induction vs with
  | nil =>
    intro i res agreed calls
    simp only [CheckPermission.loop]
    split <;> rfl
  | cons v vs ih =>
    intro i res agreed calls
    simp only [List.map_cons, List.mem_cons, not_or] at hn
    have hstep : (CheckResult.mk res.IsAllowed res.Permission res.User res.Subject
        (Option.map (fun m => m.set v.Name (v.Voter.VoteOnAccess ctx c).1)
          res.VoterResults)).entry name = res.entry name := by
      cases hm : res.VoterResults with
      | none => simp [CheckResult.entry, hm]
      | some m => simp [CheckResult.entry, hm, VoterResultMap_get?_set, hn.1]
    simp only [CheckPermission.loop]
    split
    · rfl
    · split
      · rw [ih hn.2]; exact hstep
      · split
        · exact hstep
        · rw [ih hn.2]; exact hstep

/-- A voter that is reached and returns a nil error has its vote recorded under its
name, and the entry is the one returned when no later voter bears the name. -/
theorem CheckPermission_entry_of_evaluated {V : Type} (dm : DefaultManager V) (ctx : Context)
    (c : Check V) (pre post : List (NamedVoter V)) (z : NamedVoter V)
    (hs : dm.Voters = pre ++ z :: post) (hpre : ∀ w ∈ pre, w.passes ctx c)
    (hz : z.voteErr ctx c = none) (hnot : z.Name ∉ post.map (fun v => v.Name)) :
    (dm.CheckPermission ctx c).val.entry z.Name = some (z.vote ctx c) := by
  have hl := CheckPermission_loop_passes ctx c pre (z :: post) hpre 0 (initialResult V) 0 []
  unfold DefaultManager.CheckPermission
  show (CheckPermission.loop ctx c dm.Voters 0 (initialResult V) 0 []).val.entry z.Name = _
  rw [hs, hl]
  simp only [NamedVoter.voteErr] at hz
  have hstep : (CheckResult.mk (recordVotes ctx c (initialResult V) pre).IsAllowed
      (recordVotes ctx c (initialResult V) pre).Permission
      (recordVotes ctx c (initialResult V) pre).User
      (recordVotes ctx c (initialResult V) pre).Subject
      (Option.map (fun m => m.set z.Name (z.Voter.VoteOnAccess ctx c).1)
        (recordVotes ctx c (initialResult V) pre).VoterResults)).entry z.Name =
      some (z.vote ctx c) := by
    rw [recordVotes_initial]
    simp [CheckResult.entry, VoterResultMap_get?_set, NamedVoter.vote]
  simp only [CheckPermission.loop, hz, Option.isSome_none, Bool.false_eq_true, if_false]
  split
  · rw [CheckPermission_loop_entry_of_not_mem ctx c z.Name post hnot]; exact hstep
  · split
    · exact hstep
    · rw [CheckPermission_loop_entry_of_not_mem ctx c z.Name post hnot]; exact hstep

end Perm

/-! ## Lemmas on the engines -/

theorem errorsIs_none (target : GoError) : errorsIs none target = false := rfl

theorem isSome_of_errorsIs (err : Option GoError) (target : GoError)
    (h : errorsIs err target = true) : err.isSome = true := by
  cases err with
  | none => simp [errorsIs] at h
  | some e => rfl

theorem AuthenticateRequest_afterLoop_eq {A U T : Type} (dae : DefaultAuthEngine A U T)
    (ctx : Context) (ad : Option A) (ud : Option U) (calls : List (AuthCall A U)) :
    AuthenticateRequest.afterLoop dae ctx ad ud calls =
      AuthenticateAuthData.afterLoop dae ctx ad ud calls := rfl

theorem AuthenticateRequest_loop_eq {A U T : Type} (dae : DefaultAuthEngine A U T)
    (ctx : Context) (ad : Option A) (ps : List (UserDataProvider A U)) :
    ∀ (i : Nat) (ud : Option U) (calls : List (AuthCall A U)),
      AuthenticateRequest.loop dae ctx ad ps i ud calls =
        AuthenticateAuthData.loop dae ctx ad ps i ud calls := by
  induction ps with
  | nil => intro i ud calls; rfl
  | cons p ps ih =>
    intro i ud calls
    simp only [AuthenticateRequest.loop, AuthenticateAuthData.loop, ih,
      AuthenticateRequest_afterLoop_eq]

theorem AuthenticateAuthData_loop_skip {A U T : Type} (dae : DefaultAuthEngine A U T)
    (ctx : Context) (ad : Option A) (pre rest : List (UserDataProvider A U))
    (hpre : ∀ p ∈ pre, p.yieldsNothing ctx ad) :
    ∀ (i : Nat) (calls : List (AuthCall A U)),
      AuthenticateAuthData.loop dae ctx ad (pre ++ rest) i none calls =
        AuthenticateAuthData.loop dae ctx ad rest (i + pre.length) none
          (calls ++ getUserDataCalls U ad i pre.length) := by
  induction pre with
  | nil => intro i calls; simp [getUserDataCalls]
  | cons p pre ih =>
    intro i calls
    have ih' := ih (fun q hq => hpre q (List.mem_cons_of_mem _ hq))
    rw [List.cons_append]
    rcases hpre p (List.mem_cons_self _ _) with h | h
    · simp only [UserDataProvider.declines] at h
      simp only [AuthenticateAuthData.loop, h, if_true]
      rw [ih']
      simp [getUserDataCalls, List.range'_succ, Nat.add_assoc, Nat.add_comm 1]
    · simp only [AuthenticateAuthData.loop, h, errorsIs_none, Option.isSome_none,
        Bool.false_eq_true, if_false]
      rw [ih']
      simp [getUserDataCalls, List.range'_succ, Nat.add_assoc, Nat.add_comm 1]

/-- The first provider that yields something yields user data: it is handed to the
authenticator. -/
theorem AuthenticateAuthData_of_found {A U T : Type} (dae : DefaultAuthEngine A U T)
    (ctx : Context) (ad : Option A) (pre post : List (UserDataProvider A U))
    (p : UserDataProvider A U) (u : U)
    (hs : dae.UserDataProviders = pre ++ p :: post)
    (hpre : ∀ q ∈ pre, q.yieldsNothing ctx ad)
    (hp : p.GetUserData ctx ad = (some u, none)) :
    dae.AuthenticateAuthData ctx ad =
      { val := (dae.Authenticator.Authenticate ctx ad (some u)).1,
        err := (dae.Authenticator.Authenticate ctx ad (some u)).2,
        calls := getUserDataCalls U ad 0 (pre.length + 1) ++
          [AuthCall.Authenticate ad (some u)] } := by
  unfold DefaultAuthEngine.AuthenticateAuthData
  rw [hs, AuthenticateAuthData_loop_skip dae ctx ad pre (p :: post) hpre]
  simp [AuthenticateAuthData.loop, hp, errorsIs_none, AuthenticateAuthData.afterLoop,
    getUserDataCalls, List.range'_concat]

/-- No provider yields anything: the loop runs to its end with `ud == nil`. -/
theorem AuthenticateAuthData_of_nothing {A U T : Type} (dae : DefaultAuthEngine A U T)
    (ctx : Context) (ad : Option A)
    (h : ∀ q ∈ dae.UserDataProviders, q.yieldsNothing ctx ad) :
    dae.AuthenticateAuthData ctx ad =
      { val := none, err := some GoError.ErrNoUserData,
        calls := getUserDataCalls U ad 0 dae.UserDataProviders.length } := by
  unfold DefaultAuthEngine.AuthenticateAuthData
  have hl := AuthenticateAuthData_loop_skip dae ctx ad dae.UserDataProviders [] h 0 []
  rw [List.append_nil] at hl
  rw [hl]
  simp [AuthenticateAuthData.loop, AuthenticateAuthData.afterLoop]

/-- The first provider that yields something yields an error: the loop returns it. -/
theorem AuthenticateAuthData_of_error {A U T : Type} (dae : DefaultAuthEngine A U T)
    (ctx : Context) (ad : Option A) (pre post : List (UserDataProvider A U))
    (p : UserDataProvider A U) (e : GoError)
    (hs : dae.UserDataProviders = pre ++ p :: post)
    (hpre : ∀ q ∈ pre, q.yieldsNothing ctx ad)
    (he : (p.GetUserData ctx ad).2 = some e)
    (hne : errorsIs (some e) GoError.ErrAuthDataNotSupported = false) :
    dae.AuthenticateAuthData ctx ad =
      { val := none, err := some e,
        calls := getUserDataCalls U ad 0 (pre.length + 1) } := by
  unfold DefaultAuthEngine.AuthenticateAuthData
  rw [hs, AuthenticateAuthData_loop_skip dae ctx ad pre (p :: post) hpre]
  simp [AuthenticateAuthData.loop, he, hne, getUserDataCalls, List.range'_concat]

/-- Whatever the providers do, the loop returns a `nil` token or the very pair the
authenticator returned. -/
theorem AuthenticateAuthData_loop_val {A U T : Type} (dae : DefaultAuthEngine A U T)
    (ctx : Context) (ad : Option A) (ps : List (UserDataProvider A U)) :
    ∀ (i : Nat) (ud : Option U) (calls : List (AuthCall A U)),
      (AuthenticateAuthData.loop dae ctx ad ps i ud calls).val = none ∨
      ∃ ud', (AuthenticateAuthData.loop dae ctx ad ps i ud calls).val =
            (dae.Authenticator.Authenticate ctx ad ud').1 ∧
          (AuthenticateAuthData.loop dae ctx ad ps i ud calls).err =
            (dae.Authenticator.Authenticate ctx ad ud').2 := by
  have hafter : ∀ (ud : Option U) (calls : List (AuthCall A U)),
      (AuthenticateAuthData.afterLoop dae ctx ad ud calls).val = none ∨
      ∃ ud', (AuthenticateAuthData.afterLoop dae ctx ad ud calls).val =
            (dae.Authenticator.Authenticate ctx ad ud').1 ∧
          (AuthenticateAuthData.afterLoop dae ctx ad ud calls).err =
            (dae.Authenticator.Authenticate ctx ad ud').2 := by
    intro ud calls
    unfold AuthenticateAuthData.afterLoop
    by_cases h : ud.isNone = true
    · left; simp [h]
    · right; exact ⟨ud, by simp [h], by simp [h]⟩
  induction ps with
  | nil => intro i ud calls; exact hafter ud calls
  | cons p ps ih =>
    intro i ud calls
    simp only [AuthenticateAuthData.loop]
    split
    · exact ih _ _ _
    · split
      · left; rfl
      · split
        · exact hafter _ _
        · exact ih _ _ _

theorem GetRequestAuthToken_afterLoop_eq {T : Type} (dse : DefaultSessionEngine T)
    (ctx : Context) (tok : Option T) (err : Option GoError) (calls : List (SessionCall T)) :
    GetRequestAuthToken.afterLoop dse ctx tok err calls =
      GetRawAuthToken.afterLoop dse ctx tok err calls := rfl

theorem GetRequestAuthToken_loop_eq {T : Type} (dse : DefaultSessionEngine T)
    (ctx : Context) (rs : List (AuthTokenRefiller T)) :
    ∀ (i : Nat) (tok : Option T) (err : Option GoError) (calls : List (SessionCall T)),
      GetRequestAuthToken.loop dse ctx rs i tok err calls =
        GetRawAuthToken.loop dse ctx rs i tok err calls := by
  induction rs with
  | nil => intro i tok err calls; rfl
  | cons r rs ih =>
    intro i tok err calls
    simp only [GetRequestAuthToken.loop, GetRawAuthToken.loop, ih]

theorem GetRawAuthToken_loop_skip {T : Type} (dse : DefaultSessionEngine T)
    (ctx : Context) (tok : Option T) (pre rest : List (AuthTokenRefiller T))
    (hpre : ∀ r ∈ pre, r.declines ctx tok) :
    ∀ (i : Nat) (err : Option GoError) (calls : List (SessionCall T)),
      GetRawAuthToken.loop dse ctx (pre ++ rest) i tok err calls =
        GetRawAuthToken.loop dse ctx rest (i + pre.length) tok
          (errAfterRefillers ctx tok err pre)
          (calls ++ processAuthTokenCalls tok i pre.length) := by
  induction pre with
  | nil => intro i err calls; simp [processAuthTokenCalls, errAfterRefillers]
  | cons r pre ih =>
    intro i err calls
    have ih' := ih (fun q hq => hpre q (List.mem_cons_of_mem _ hq))
    have h := hpre r (List.mem_cons_self _ _)
    simp only [AuthTokenRefiller.declines] at h
    rw [List.cons_append]
    simp only [GetRawAuthToken.loop, h, if_true]
    rw [ih']
    simp [processAuthTokenCalls, errAfterRefillers, List.range'_succ, Nat.add_assoc,
      Nat.add_comm 1]

/-- After a successful deserialization and pre-refill validation `GetRawAuthToken`
enters its loop with `err == nil`. -/
theorem GetRawAuthToken_prelude {T : Type} (dse : DefaultSessionEngine T) (ctx : Context)
    (rat : Bytes) (tok : Option T)
    (hd : dse.AuthTokenDeserializer.DeserializeAuthToken ctx rat = (tok, none))
    (hv : preRefillPasses dse ctx tok) :
    dse.GetRawAuthToken ctx rat =
      GetRawAuthToken.loop dse ctx dse.AuthTokenRefillers 0 tok none
        (SessionCall.DeserializeAuthToken rat :: preRefillCalls dse tok) := by
  unfold DefaultSessionEngine.GetRawAuthToken preRefillCalls
  unfold preRefillPasses at hv
  cases hval : dse.AuthTokenValidator with
  | none => simp [hd]
  | some v => simp [hd, hv v hval]

/-- After a successful deserialization and pre-refill validation
`GetRequestAuthToken` enters its loop with `err == nil`. -/
theorem GetRequestAuthToken_prelude {T : Type} (dse : DefaultSessionEngine T) (ctx : Context)
    (r : Request) (tok : Option T)
    (hd : dse.HTTPAuthTokenDeserializer.DeserializeAuthTokenFromRequest ctx r = (tok, none))
    (hv : preRefillPasses dse ctx tok) :
    dse.GetRequestAuthToken ctx r =
      GetRawAuthToken.loop dse ctx dse.AuthTokenRefillers 0 tok none
        (SessionCall.DeserializeAuthTokenFromRequest r :: preRefillCalls dse tok) := by
  unfold DefaultSessionEngine.GetRequestAuthToken preRefillCalls
  unfold preRefillPasses at hv
  cases hval : dse.AuthTokenValidator with
  | none => simp [hd, GetRequestAuthToken_loop_eq]
  | some v => simp [hd, hv v hval, GetRequestAuthToken_loop_eq]

/-- The first refiller that does not decline succeeds: the loop returns its token. -/
theorem GetRawAuthToken_loop_of_success {T : Type} (dse : DefaultSessionEngine T)
    (ctx : Context) (tok tok' : Option T) (pre post : List (AuthTokenRefiller T))
    (r : AuthTokenRefiller T)
    (hpre : ∀ q ∈ pre, q.declines ctx tok)
    (hr : r.ProcessAuthToken ctx tok = (tok', none))
    (err : Option GoError) (calls : List (SessionCall T)) :
    GetRawAuthToken.loop dse ctx (pre ++ r :: post) 0 tok err calls =
      { val := tok', err := none,
        calls := calls ++ processAuthTokenCalls tok 0 (pre.length + 1) } := by
  rw [GetRawAuthToken_loop_skip dse ctx tok pre (r :: post) hpre]
  simp [GetRawAuthToken.loop, hr, errorsIs_none, processAuthTokenCalls, List.range'_concat]

/-- Every refiller declines and no validator is configured: the loop returns the
token it was given and the error of the last refiller. -/
theorem GetRawAuthToken_loop_of_all_decline {T : Type} (dse : DefaultSessionEngine T)
    (ctx : Context) (tok : Option T) (hval : dse.AuthTokenValidator = none)
    (rs : List (AuthTokenRefiller T)) (hrs : ∀ q ∈ rs, q.declines ctx tok)
    (err : Option GoError) (calls : List (SessionCall T)) :
    GetRawAuthToken.loop dse ctx rs 0 tok err calls =
      { val := tok, err := errAfterRefillers ctx tok err rs,
        calls := calls ++ processAuthTokenCalls tok 0 rs.length } := by
  have h := GetRawAuthToken_loop_skip dse ctx tok rs [] hrs 0 err calls
  rw [List.append_nil] at h
  rw [h]
  simp [GetRawAuthToken.loop, GetRawAuthToken.afterLoop, hval]

theorem mem_getUserDataCalls {A U : Type} (ad : Option A) (i n : Nat) (x : AuthCall A U) :
    x ∈ getUserDataCalls U ad i n ↔ ∃ j, i ≤ j ∧ j < i + n ∧ x = AuthCall.GetUserData j ad := by
  unfold getUserDataCalls
  simp only [List.mem_map, List.mem_range'_1]
  constructor
  · rintro ⟨j, ⟨h1, h2⟩, rfl⟩
    exact ⟨j, h1, h2, rfl⟩
  · rintro ⟨j, h1, h2, rfl⟩
    exact ⟨j, ⟨h1, h2⟩, rfl⟩

theorem mem_processAuthTokenCalls {T : Type} (tok : Option T) (i n : Nat) (x : SessionCall T) :
    x ∈ processAuthTokenCalls tok i n ↔
      ∃ j, i ≤ j ∧ j < i + n ∧ x = SessionCall.ProcessAuthToken j tok := by
  unfold processAuthTokenCalls
  simp only [List.mem_map, List.mem_range'_1]
  constructor
  · rintro ⟨j, ⟨h1, h2⟩, rfl⟩
    exact ⟨j, h1, h2, rfl⟩
  · rintro ⟨j, h1, h2, rfl⟩
    exact ⟨j, ⟨h1, h2⟩, rfl⟩

theorem mem_preRefillCalls {T : Type} (dse : DefaultSessionEngine T) (tok : Option T)
    (x : SessionCall T) (hx : x ∈ preRefillCalls dse tok) :
    x = SessionCall.ValidatePreRefill tok := by
  unfold preRefillCalls at hx
  cases h : dse.AuthTokenValidator with
  | none => simp [h] at hx
  | some v => simpa [h] using hx

theorem errAfterRefillers_isSome {T : Type} (ctx : Context) (tok : Option T)
    (rs : List (AuthTokenRefiller T)) (hne : rs ≠ [])
    (hrs : ∀ q ∈ rs, q.declines ctx tok) :
    ∀ err : Option GoError,
      errorsIs (errAfterRefillers ctx tok err rs) GoError.ErrAuthDataNotSupported = true := by
  induction rs with
  | nil => exact absurd rfl hne
  | cons r rs ih =>
    intro err
    by_cases hnil : rs = []
    · subst hnil
      exact hrs r (List.mem_cons_self _ _)
    · have h := ih hnil (fun q hq => hrs q (List.mem_cons_of_mem _ hq))
        (r.ProcessAuthToken ctx tok).2
      simpa [errAfterRefillers] using h

theorem ValidatePreRefill_loop_pass {T : Type} (ctx : Context) (tok : Option T)
    (pre rest : List (AuthTokenValidator T))
    (hpre : ∀ v ∈ pre, v.ValidatePreRefill ctx tok = none) :
    ∀ (i : Nat) (calls : List (ValidatorCall T)),
      AuthDataValidators.ValidatePreRefill.loop ctx tok (pre ++ rest) i none calls =
        AuthDataValidators.ValidatePreRefill.loop ctx tok rest (i + pre.length) none
          (calls ++ validatePreRefillCalls tok i pre.length) := by
  induction pre with
  | nil => intro i calls; simp [validatePreRefillCalls]
  | cons v pre ih =>
    intro i calls
    have ih' := ih (fun w hw => hpre w (List.mem_cons_of_mem _ hw))
    have h := hpre v (List.mem_cons_self _ _)
    rw [List.cons_append]
    simp only [AuthDataValidators.ValidatePreRefill.loop, h, Option.isSome_none,
      Bool.false_eq_true, if_false]
    rw [ih']
    simp [validatePreRefillCalls, List.range'_succ, Nat.add_assoc, Nat.add_comm 1]

theorem ValidateAfterRefill_loop_pass {T : Type} (ctx : Context) (tok : Option T)
    (pre rest : List (AuthTokenValidator T))
    (hpre : ∀ v ∈ pre, v.ValidateAfterRefill ctx tok = none) :
    ∀ (i : Nat) (calls : List (ValidatorCall T)),
      AuthDataValidators.ValidateAfterRefill.loop ctx tok (pre ++ rest) i none calls =
        AuthDataValidators.ValidateAfterRefill.loop ctx tok rest (i + pre.length) none
          (calls ++ validateAfterRefillCalls tok i pre.length) := by
  induction pre with
  | nil => intro i calls; simp [validateAfterRefillCalls]
  | cons v pre ih =>
    intro i calls
    have ih' := ih (fun w hw => hpre w (List.mem_cons_of_mem _ hw))
    have h := hpre v (List.mem_cons_self _ _)
    rw [List.cons_append]
    simp only [AuthDataValidators.ValidateAfterRefill.loop, h, Option.isSome_none,
      Bool.false_eq_true, if_false]
    rw [ih']
    simp [validateAfterRefillCalls, List.range'_succ, Nat.add_assoc, Nat.add_comm 1]

/-- Every member accepts before the refill: the aggregate calls them all and accepts. -/
theorem ValidatePreRefill_of_all_pass {T : Type} (advs : AuthDataValidators T)
    (ctx : Context) (tok : Option T) (h : ∀ v ∈ advs, v.ValidatePreRefill ctx tok = none) :
    AuthDataValidators.ValidatePreRefill advs ctx tok =
      { val := (), err := none, calls := validatePreRefillCalls tok 0 advs.length } := by
  have hl := ValidatePreRefill_loop_pass ctx tok advs [] h 0 []
  rw [List.append_nil] at hl
  unfold AuthDataValidators.ValidatePreRefill
  rw [hl]
  simp [AuthDataValidators.ValidatePreRefill.loop]

/-- The first member that rejects before the refill decides: its error is returned. -/
theorem ValidatePreRefill_of_reject {T : Type} (advs : AuthDataValidators T)
    (ctx : Context) (tok : Option T) (pre post : List (AuthTokenValidator T))
    (v : AuthTokenValidator T) (e : GoError) (hs : advs = pre ++ v :: post)
    (hpre : ∀ w ∈ pre, w.ValidatePreRefill ctx tok = none)
    (hv : v.ValidatePreRefill ctx tok = some e) :
    AuthDataValidators.ValidatePreRefill advs ctx tok =
      { val := (), err := some e, calls := validatePreRefillCalls tok 0 (pre.length + 1) } := by
  unfold AuthDataValidators.ValidatePreRefill
  rw [hs, ValidatePreRefill_loop_pass ctx tok pre (v :: post) hpre]
  simp [AuthDataValidators.ValidatePreRefill.loop, hv, validatePreRefillCalls,
    List.range'_concat]

/-- Every member accepts after the refill: the aggregate calls them all and accepts. -/
theorem ValidateAfterRefill_of_all_pass {T : Type} (advs : AuthDataValidators T)
    (ctx : Context) (tok : Option T) (h : ∀ v ∈ advs, v.ValidateAfterRefill ctx tok = none) :
    AuthDataValidators.ValidateAfterRefill advs ctx tok =
      { val := (), err := none, calls := validateAfterRefillCalls tok 0 advs.length } := by
  have hl := ValidateAfterRefill_loop_pass ctx tok advs [] h 0 []
  rw [List.append_nil] at hl
  unfold AuthDataValidators.ValidateAfterRefill
  rw [hl]
  simp [AuthDataValidators.ValidateAfterRefill.loop]

/-- The first member that rejects after the refill decides: its error is returned. -/
theorem ValidateAfterRefill_of_reject {T : Type} (advs : AuthDataValidators T)
    (ctx : Context) (tok : Option T) (pre post : List (AuthTokenValidator T))
    (v : AuthTokenValidator T) (e : GoError) (hs : advs = pre ++ v :: post)
    (hpre : ∀ w ∈ pre, w.ValidateAfterRefill ctx tok = none)
    (hv : v.ValidateAfterRefill ctx tok = some e) :
    AuthDataValidators.ValidateAfterRefill advs ctx tok =
      { val := (), err := some e,
        calls := validateAfterRefillCalls tok 0 (pre.length + 1) } := by
  unfold AuthDataValidators.ValidateAfterRefill
  rw [hs, ValidateAfterRefill_loop_pass ctx tok pre (v :: post) hpre]
  simp [AuthDataValidators.ValidateAfterRefill.loop, hv, validateAfterRefillCalls,
    List.range'_concat]

/-- Every refiller declines and a validator is configured: the loop ends with
post-refill validation of the token it was given. -/
theorem GetRawAuthToken_loop_of_all_decline_validated {T : Type} (dse : DefaultSessionEngine T)
    (ctx : Context) (tok : Option T) (v : AuthTokenValidator T)
    (hval : dse.AuthTokenValidator = some v)
    (rs : List (AuthTokenRefiller T)) (hrs : ∀ q ∈ rs, q.declines ctx tok)
    (err : Option GoError) (calls : List (SessionCall T)) :
    GetRawAuthToken.loop dse ctx rs 0 tok err calls =
      { val := tok, err := v.ValidateAfterRefill ctx tok,
        calls := calls ++ processAuthTokenCalls tok 0 rs.length ++
          [SessionCall.ValidateAfterRefill tok] } := by
  have h := GetRawAuthToken_loop_skip dse ctx tok rs [] hrs 0 err calls
  rw [List.append_nil] at h
  rw [h]
  simp [GetRawAuthToken.loop, GetRawAuthToken.afterLoop, hval]

/-- The first refiller that does not decline fails: the loop returns its error with
the token it was given. -/
theorem GetRawAuthToken_loop_of_failure {T : Type} (dse : DefaultSessionEngine T)
    (ctx : Context) (tok : Option T) (pre post : List (AuthTokenRefiller T))
    (r : AuthTokenRefiller T) (e : GoError)
    (hpre : ∀ q ∈ pre, q.declines ctx tok)
    (hr : (r.ProcessAuthToken ctx tok).2 = some e)
    (hne : errorsIs (some e) GoError.ErrAuthDataNotSupported = false)
    (err : Option GoError) (calls : List (SessionCall T)) :
    GetRawAuthToken.loop dse ctx (pre ++ r :: post) 0 tok err calls =
      { val := tok, err := some e,
        calls := calls ++ processAuthTokenCalls tok 0 (pre.length + 1) } := by
  rw [GetRawAuthToken_loop_skip dse ctx tok pre (r :: post) hpre]
  simp [GetRawAuthToken.loop, hr, hne, processAuthTokenCalls, List.range'_concat]

/-- A call list made of a first call other than `ProcessAuthToken` and
`ValidateAfterRefill`, the pre-refill call and the calls on the refillers of index
below `n` holds no call on a later refiller and no `ValidateAfterRefill`. -/
theorem sessionCalls_not_mem {T : Type} (dse : DefaultSessionEngine T) (tok : Option T)
    (n : Nat) (first : SessionCall T)
    (h1 : ∀ j x, first ≠ SessionCall.ProcessAuthToken j x)
    (h2 : ∀ x, first ≠ SessionCall.ValidateAfterRefill x) :
    (∀ j x, n ≤ j → SessionCall.ProcessAuthToken j x ∉
      first :: preRefillCalls dse tok ++ processAuthTokenCalls tok 0 n) ∧
    (∀ x, SessionCall.ValidateAfterRefill x ∉
      first :: preRefillCalls dse tok ++ processAuthTokenCalls tok 0 n) := by
  constructor
  · intro j x hj hmem
    rcases List.mem_cons.mp hmem with h | h
    · exact h1 j x h.symm
    · rcases List.mem_append.mp h with h | h
      · have := mem_preRefillCalls dse tok _ h
        cases this
      · obtain ⟨k, _, hk, hx⟩ := (mem_processAuthTokenCalls tok 0 _ _).mp h
        injection hx with hjk _
        omega
  · intro x hmem
    rcases List.mem_cons.mp hmem with h | h
    · exact h2 x h.symm
    · rcases List.mem_append.mp h with h | h
      · have := mem_preRefillCalls dse tok _ h
        cases this
      · obtain ⟨k, _, _, hx⟩ := (mem_processAuthTokenCalls tok 0 _ _).mp h
        cases hx

/-- The calls the provider loop starts with are a prefix of the calls it returns and
do not affect the result. -/
theorem AuthenticateAuthData_loop_calls {A U T : Type} (dae : DefaultAuthEngine A U T)
    (ctx : Context) (ad : Option A) (ps : List (UserDataProvider A U)) :
    ∀ (i : Nat) (ud : Option U) (c0 c : List (AuthCall A U)),
      AuthenticateAuthData.loop dae ctx ad ps i ud (c0 ++ c) =
        { val := (AuthenticateAuthData.loop dae ctx ad ps i ud c).val,
          err := (AuthenticateAuthData.loop dae ctx ad ps i ud c).err,
          calls := c0 ++ (AuthenticateAuthData.loop dae ctx ad ps i ud c).calls } := by
  have hafter : ∀ (ud : Option U) (c0 c : List (AuthCall A U)),
      AuthenticateAuthData.afterLoop dae ctx ad ud (c0 ++ c) =
        { val := (AuthenticateAuthData.afterLoop dae ctx ad ud c).val,
          err := (AuthenticateAuthData.afterLoop dae ctx ad ud c).err,
          calls := c0 ++ (AuthenticateAuthData.afterLoop dae ctx ad ud c).calls } := by
    intro ud c0 c
    unfold AuthenticateAuthData.afterLoop
    split <;> simp
  induction ps with
  | nil => intro i ud c0 c; exact hafter ud c0 c
  | cons p ps ih =>
    intro i ud c0 c
    simp only [AuthenticateAuthData.loop, List.append_assoc]
    split
    · exact ih _ _ _ _
    · split
      · rfl
      · split
        · exact hafter _ _ _
        · exact ih _ _ _ _

/-- The calls the refiller loop starts with are a prefix of the calls it returns and
do not affect the result. -/
theorem GetRawAuthToken_loop_calls {T : Type} (dse : DefaultSessionEngine T)
    (ctx : Context) (rs : List (AuthTokenRefiller T)) :
    ∀ (i : Nat) (tok : Option T) (err : Option GoError) (c0 c : List (SessionCall T)),
      GetRawAuthToken.loop dse ctx rs i tok err (c0 ++ c) =
        { val := (GetRawAuthToken.loop dse ctx rs i tok err c).val,
          err := (GetRawAuthToken.loop dse ctx rs i tok err c).err,
          calls := c0 ++ (GetRawAuthToken.loop dse ctx rs i tok err c).calls } := by
  induction rs with
  | nil =>
    intro i tok err c0 c
    simp only [GetRawAuthToken.loop, GetRawAuthToken.afterLoop]
    split <;> simp
  | cons r rs ih =>
    intro i tok err c0 c
    simp only [GetRawAuthToken.loop, List.append_assoc]
    split
    · exact ih _ _ _ _ _
    · split <;> rfl

/-! ## The permission voting manager: claims -/

namespace Perm

/-- C1. For every check and every list of named voters none of which returns an
error, `CheckPermission` returns a nil error, and `IsAllowed` is true if and only
if no voter votes `VoterDeny` and at least one voter votes `VoterAgree`.  In
particular an empty voter list and a list voting only `VoterNeutral` or
`VoterNoSupport` give `IsAllowed = false`, and one `VoterDeny` overrides any
number of `VoterAgree` votes. -/
theorem CheckPermission_allowed_iff {V : Type} (dm : DefaultManager V) (ctx : Context)
    (c : Check V) (hne : ∀ v ∈ dm.Voters, v.voteErr ctx c = none) :
    (dm.CheckPermission ctx c).err = none ∧
    ((dm.CheckPermission ctx c).val.IsAllowed = true ↔
      (∀ v ∈ dm.Voters, v.vote ctx c ≠ VoterDeny) ∧
        (∃ v ∈ dm.Voters, v.vote ctx c = VoterAgree)) ∧
    (dm.Voters = [] → (dm.CheckPermission ctx c).val.IsAllowed = false) ∧
    ((∀ v ∈ dm.Voters, v.vote ctx c = VoterNeutral ∨ v.vote ctx c = VoterNoSupport) →
      (dm.CheckPermission ctx c).val.IsAllowed = false) ∧
    ((∃ v ∈ dm.Voters, v.vote ctx c = VoterDeny) →
      (dm.CheckPermission ctx c).val.IsAllowed = false) := by
  have core : (dm.CheckPermission ctx c).err = none ∧
      ((dm.CheckPermission ctx c).val.IsAllowed = true ↔
        (∀ v ∈ dm.Voters, v.vote ctx c ≠ VoterDeny) ∧
          (∃ v ∈ dm.Voters, v.vote ctx c = VoterAgree)) := by
    rcases split_at_first_failing (fun v => v.passes ctx c) dm.Voters with
      hall | ⟨pre, d, post, hs, hpre, hd⟩
    · rw [CheckPermission_of_all_pass dm ctx c hall]
      refine ⟨rfl, ?_⟩
      have hnd : ∀ v ∈ dm.Voters, v.vote ctx c ≠ VoterDeny := fun v hv => (hall v hv).2
      simp only [decide_eq_true_eq, agreeCount, gt_iff_lt, List.countP_pos_iff]
      constructor
      · rintro ⟨v, hv, hva⟩
        exact ⟨hnd, v, hv, by simpa using hva⟩
      · rintro ⟨_, v, hv, hva⟩
        exact ⟨v, hv, by simpa using hva⟩
    · have hd1 : d.voteErr ctx c = none := hne d (by rw [hs]; simp)
      have hd2 : d.vote ctx c = VoterDeny := by
        by_contra hcon
        exact hd ⟨hd1, hcon⟩
      rw [CheckPermission_of_deny dm ctx c pre post d hs hpre hd1 hd2, recordVotes_initial]
      refine ⟨rfl, ?_⟩
      constructor
      · intro h; simp at h
      · rintro ⟨hno, _⟩
        exact absurd hd2 (hno d (by rw [hs]; simp))
  refine ⟨core.1, core.2, ?_, ?_, ?_⟩
  · intro hnil
    cases hb : (dm.CheckPermission ctx c).val.IsAllowed with
    | false => rfl
    | true =>
      obtain ⟨_, v, hv, _⟩ := core.2.mp hb
      rw [hnil] at hv
      simp at hv
  · intro hneutral
    cases hb : (dm.CheckPermission ctx c).val.IsAllowed with
    | false => rfl
    | true =>
      obtain ⟨_, v, hv, hva⟩ := core.2.mp hb
      rcases hneutral v hv with h | h
      · rw [hva] at h; exact absurd h (by decide)
      · rw [hva] at h; exact absurd h (by decide)
  · rintro ⟨d, hd, hdd⟩
    cases hb : (dm.CheckPermission ctx c).val.IsAllowed with
    | false => rfl
    | true => exact absurd hdd ((core.2.mp hb).1 d hd)

/-- Witness of C1: voters `a`, `b`, `c` vote Agree, Deny, Agree without error, and the
one Deny overrides the two Agree votes. -/
theorem CheckPermission_allowed_iff_witness :
    (∀ v ∈ Example.agreeDenyAgree.Voters, v.voteErr Example.ctx Example.editCheck = none) ∧
    (Example.agreeDenyAgree.CheckPermission Example.ctx Example.editCheck).err = none ∧
    (Example.agreeDenyAgree.CheckPermission Example.ctx Example.editCheck).val.IsAllowed
      = false :=
  ⟨by decide,
   (CheckPermission_allowed_iff Example.agreeDenyAgree Example.ctx Example.editCheck
      (by decide)).1,
   (CheckPermission_allowed_iff Example.agreeDenyAgree Example.ctx Example.editCheck
      (by decide)).2.2.2.2 (by decide)⟩

/-- C2. For every list of voters with pairwise distinct names none of which returns
an error: if some voter votes `VoterDeny`, then `IsAllowed` is false and
`VoterResults` holds exactly the voters up to and including the first denying one,
each name mapped to that voter's own vote, and no entry for any voter after it; if
no voter votes `VoterDeny`, `VoterResults` holds exactly one entry per configured
voter, mapped to its vote. -/
theorem CheckPermission_audit_map {V : Type} (dm : DefaultManager V) (ctx : Context)
    (c : Check V) (hnd : (dm.Voters.map (fun v => v.Name)).Nodup)
    (hne : ∀ v ∈ dm.Voters, v.voteErr ctx c = none) :
    (∀ (pre post : List (NamedVoter V)) (d : NamedVoter V),
      dm.Voters = pre ++ d :: post → (∀ v ∈ pre, v.vote ctx c ≠ VoterDeny) →
      d.vote ctx c = VoterDeny →
        (dm.CheckPermission ctx c).val.IsAllowed = false ∧
        (∀ v ∈ pre ++ [d], (dm.CheckPermission ctx c).val.entry v.Name = some (v.vote ctx c)) ∧
        (∀ v ∈ post, (dm.CheckPermission ctx c).val.entry v.Name = none) ∧
        (∀ name, name ∉ (pre ++ [d]).map (fun v => v.Name) →
          (dm.CheckPermission ctx c).val.entry name = none) ∧
        (∃ m, (dm.CheckPermission ctx c).val.VoterResults = some m ∧
          m.size = pre.length + 1)) ∧
    ((∀ v ∈ dm.Voters, v.vote ctx c ≠ VoterDeny) →
        (∀ v ∈ dm.Voters, (dm.CheckPermission ctx c).val.entry v.Name = some (v.vote ctx c)) ∧
        (∀ name, name ∉ dm.Voters.map (fun v => v.Name) →
          (dm.CheckPermission ctx c).val.entry name = none) ∧
        (∃ m, (dm.CheckPermission ctx c).val.VoterResults = some m ∧
          m.size = dm.Voters.length)) := by
  constructor
  · intro pre post d hs hpre hd
    have hpass : ∀ v ∈ pre, v.passes ctx c := fun v hv =>
      ⟨hne v (by rw [hs]; simp [hv]), hpre v hv⟩
    have hd1 : d.voteErr ctx c = none := hne d (by rw [hs]; simp)
    rw [CheckPermission_of_deny dm ctx c pre post d hs hpass hd1 hd, recordVotes_initial]
    have hnd' : ((pre ++ [d]).map (fun v => v.Name) ++ post.map (fun v => v.Name)).Nodup := by
      rw [hs] at hnd
      simpa using hnd
    have hnd1 : ((pre ++ [d]).map (fun v => v.Name)).Nodup := (List.nodup_append.mp hnd').1
    refine ⟨rfl, ?_, ?_, ?_, ?_⟩
    · intro v hv
      exact recordMap_get?_of_mem ctx c (pre ++ [d]) hnd1 v hv []
    · intro v hv
      have hnot : v.Name ∉ (pre ++ [d]).map (fun v => v.Name) := fun hmem =>
        (List.nodup_append.mp hnd').2.2 hmem (List.mem_map.mpr ⟨v, hv, rfl⟩)
      exact recordMap_get?_of_not_mem ctx c (pre ++ [d]) v.Name hnot []
    · intro name hname
      exact recordMap_get?_of_not_mem ctx c (pre ++ [d]) name hname []
    · exact ⟨_, rfl, by rw [recordMap_size ctx c (pre ++ [d]) hnd1]; simp⟩
  · intro hno
    have hpass : ∀ v ∈ dm.Voters, v.passes ctx c := fun v hv => ⟨hne v hv, hno v hv⟩
    rw [CheckPermission_of_all_pass dm ctx c hpass, recordVotes_initial]
    refine ⟨?_, ?_, ?_⟩
    · intro v hv
      exact recordMap_get?_of_mem ctx c dm.Voters hnd v hv []
    · intro name hname
      exact recordMap_get?_of_not_mem ctx c dm.Voters name hname []
    · exact ⟨_, rfl, recordMap_size ctx c dm.Voters hnd⟩

/-- Witness of C2: voters `owner` (NoSupport) and `admin` (Agree) have distinct names
and return no error; each has its own entry in `VoterResults`. -/
theorem CheckPermission_audit_map_witness :
    (Example.ownerAdmin.Voters.map (fun v => v.Name)).Nodup ∧
    (∀ v ∈ Example.ownerAdmin.Voters, v.voteErr Example.ctx Example.editCheck = none) ∧
    (∀ v ∈ Example.ownerAdmin.Voters,
      (Example.ownerAdmin.CheckPermission Example.ctx Example.editCheck).val.entry v.Name =
        some (v.vote Example.ctx Example.editCheck)) :=
  ⟨by decide, by decide,
   ((CheckPermission_audit_map Example.ownerAdmin Example.ctx Example.editCheck
      (by decide) (by decide)).2 (by decide)).1⟩

/-- The scenario of C2 evaluated: `owner` votes NoSupport, `admin` votes Agree; the
result allows and `VoterResults` is `{owner: NoSupport, admin: Agree}`. -/
theorem CheckPermission_owner_admin :
    (Example.ownerAdmin.CheckPermission Example.ctx Example.editCheck).err = none ∧
    (Example.ownerAdmin.CheckPermission Example.ctx Example.editCheck).val.IsAllowed = true ∧
    (Example.ownerAdmin.CheckPermission Example.ctx Example.editCheck).val.VoterResults =
      some [("owner", VoterNoSupport), ("admin", VoterAgree)] := by
  decide

/-- C9. If voter `i` returns an error `e` and no voter before it voted `VoterDeny`
or returned an error, `CheckPermission` returns `e` unchanged, `IsAllowed` is false
whatever the earlier voters voted, and the voters invoked are exactly those of index
`0..i`: no voter after `i` is invoked. -/
theorem CheckPermission_voter_error {V : Type} (dm : DefaultManager V) (ctx : Context)
    (c : Check V) (pre post : List (NamedVoter V)) (v : NamedVoter V) (e : GoError)
    (hs : dm.Voters = pre ++ v :: post)
    (hpre : ∀ w ∈ pre, w.voteErr ctx c = none ∧ w.vote ctx c ≠ VoterDeny)
    (he : v.voteErr ctx c = some e) :
    (dm.CheckPermission ctx c).err = some e ∧
    (dm.CheckPermission ctx c).val.IsAllowed = false ∧
    (dm.CheckPermission ctx c).calls = List.range (pre.length + 1) ∧
    (∀ j, pre.length < j → j ∉ (dm.CheckPermission ctx c).calls) := by
  rw [CheckPermission_of_error dm ctx c pre post v e hs hpre he, recordVotes_initial]
  refine ⟨rfl, rfl, ?_, ?_⟩
  · simp [List.range_eq_range']
  · intro j hj hmem
    simp only [List.mem_range'_1] at hmem
    omega

/-- Witness of C9: voters `a` (agrees), `b` (fails), `c` (agrees); the error of `b` is
returned, the result does not allow, and `c` is not invoked. -/
theorem CheckPermission_voter_error_witness :
    (Example.agreeFailAgree.CheckPermission Example.ctx Example.editCheck).err =
      some (GoError.errorString "voter b failed") ∧
    (Example.agreeFailAgree.CheckPermission Example.ctx Example.editCheck).val.IsAllowed
      = false ∧
    (Example.agreeFailAgree.CheckPermission Example.ctx Example.editCheck).calls =
      List.range (1 + 1) ∧
    (∀ j, 1 < j →
      j ∉ (Example.agreeFailAgree.CheckPermission Example.ctx Example.editCheck).calls) :=
  CheckPermission_voter_error Example.agreeFailAgree Example.ctx Example.editCheck
    [{ Voter := Example.constVoter VoterAgree, Name := "a" }]
    [{ Voter := Example.constVoter VoterAgree, Name := "c" }]
    { Voter := Example.failingVoter (GoError.errorString "voter b failed"), Name := "b" }
    (GoError.errorString "voter b failed") rfl (by decide) rfl

/-- C10 as stated fails: voter `a` agrees, then voter `b` fails; the result returned
with the error of `b` still holds the entry recorded for `a`. -/
theorem CheckPermission_error_keeps_entries :
    (Example.agreeFailAgree.CheckPermission Example.ctx Example.editCheck).err =
      some (GoError.errorString "voter b failed") ∧
    (Example.agreeFailAgree.CheckPermission Example.ctx Example.editCheck).val.entry "a" =
      some VoterAgree ∧
    ¬ (∀ name,
      (Example.agreeFailAgree.CheckPermission Example.ctx Example.editCheck).val.entry name
        = none) := by
  refine ⟨by decide, by decide, ?_⟩
  intro h
  exact absurd (h "a") (by decide)

/-- C10, amended. For every voter list with pairwise distinct names whose `i`-th
voter errors after the voters before it voted without error or Deny, the result
returned with the error is the partly filled one: `IsAllowed` is false and
`VoterResults` holds exactly one entry for each voter evaluated before the failing
one, mapped to its vote, and no entry for the failing voter or any later one. -/
theorem CheckPermission_error_audit_map {V : Type} (dm : DefaultManager V) (ctx : Context)
    (c : Check V) (pre post : List (NamedVoter V)) (v : NamedVoter V) (e : GoError)
    (hs : dm.Voters = pre ++ v :: post)
    (hnd : (dm.Voters.map (fun w => w.Name)).Nodup)
    (hpre : ∀ w ∈ pre, w.voteErr ctx c = none ∧ w.vote ctx c ≠ VoterDeny)
    (he : v.voteErr ctx c = some e) :
    (dm.CheckPermission ctx c).err = some e ∧
    (dm.CheckPermission ctx c).val.IsAllowed = false ∧
    (∀ w ∈ pre, (dm.CheckPermission ctx c).val.entry w.Name = some (w.vote ctx c)) ∧
    (∀ w ∈ v :: post, (dm.CheckPermission ctx c).val.entry w.Name = none) ∧
    (∀ name, name ∉ pre.map (fun w => w.Name) →
      (dm.CheckPermission ctx c).val.entry name = none) ∧
    (∃ m, (dm.CheckPermission ctx c).val.VoterResults = some m ∧ m.size = pre.length) := by
  rw [CheckPermission_of_error dm ctx c pre post v e hs hpre he, recordVotes_initial]
  have hnd' : (pre.map (fun w => w.Name) ++ (v :: post).map (fun w => w.Name)).Nodup := by
    rw [hs] at hnd
    simpa using hnd
  have hnd1 : (pre.map (fun w => w.Name)).Nodup := (List.nodup_append.mp hnd').1
  refine ⟨rfl, rfl, ?_, ?_, ?_, ?_⟩
  · intro w hw
    exact recordMap_get?_of_mem ctx c pre hnd1 w hw []
  · intro w hw
    have hnot : w.Name ∉ pre.map (fun w => w.Name) := fun hmem =>
      (List.nodup_append.mp hnd').2.2 hmem (List.mem_map.mpr ⟨w, hw, rfl⟩)
    exact recordMap_get?_of_not_mem ctx c pre w.Name hnot []
  · intro name hname
    exact recordMap_get?_of_not_mem ctx c pre name hname []
  · exact ⟨_, rfl, recordMap_size ctx c pre hnd1⟩

/-- Witness of amended C10: voters `a` (agrees), `b` (fails), `c` (agrees); the result
returned with the error holds the entry of `a` and none for `b` or `c`. -/
theorem CheckPermission_error_audit_map_witness :
    (Example.agreeFailAgree.Voters.map (fun w => w.Name)).Nodup ∧
    (Example.agreeFailAgree.CheckPermission Example.ctx Example.editCheck).err =
      some (GoError.errorString "voter b failed") ∧
    (∃ m, (Example.agreeFailAgree.CheckPermission Example.ctx Example.editCheck).val.VoterResults
        = some m ∧ m.size = 1) :=
  ⟨by decide,
   (CheckPermission_error_audit_map Example.agreeFailAgree Example.ctx Example.editCheck
      [{ Voter := Example.constVoter VoterAgree, Name := "a" }]
      [{ Voter := Example.constVoter VoterAgree, Name := "c" }]
      { Voter := Example.failingVoter (GoError.errorString "voter b failed"), Name := "b" }
      (GoError.errorString "voter b failed") rfl (by decide) (by decide) rfl).1,
   (CheckPermission_error_audit_map Example.agreeFailAgree Example.ctx Example.editCheck
      [{ Voter := Example.constVoter VoterAgree, Name := "a" }]
      [{ Voter := Example.constVoter VoterAgree, Name := "c" }]
      { Voter := Example.failingVoter (GoError.errorString "voter b failed"), Name := "b" }
      (GoError.errorString "voter b failed") rfl (by decide) (by decide) rfl).2.2.2.2.2⟩

/-- C11 as stated fails: voter `z` returns the zero result with a nil error and voter
`a` agrees; `CheckPermission` reports no error and completes with the decision it
would reach had `z` voted `VoterNeutral`, the zero result recorded for `z`. -/
theorem CheckPermission_zero_result_no_error :
    (Example.zeroThenAgree.CheckPermission Example.ctx Example.editCheck).err = none ∧
    (Example.zeroThenAgree.CheckPermission Example.ctx Example.editCheck).val.IsAllowed
      = true ∧
    (Example.zeroThenAgree.CheckPermission Example.ctx Example.editCheck).val.entry "z"
      = some 0 ∧
    VoterResult.IsZero 0 = true := by
  decide

/-- C11, amended. A zero `VoterResult` returned with a nil error is distinguishable
from the four constants (`IsZero`), but `CheckPermission` treats it as it treats
`VoterNeutral`: for every voter list in which a voter returns the zero result with
a nil error, the error, the decision `IsAllowed` and the voters invoked are those
of the same list with that voter voting `VoterNeutral`, and the error is nil when no
other voter returns one.  When the voter is reached (every voter before it votes
without error or Deny) and no later voter bears its name, the zero value is what
`VoterResults` holds under its name, where the list with `VoterNeutral` holds
`VoterNeutral`. -/
theorem CheckPermission_zero_as_neutral {V : Type} (ctx : Context) (c : Check V)
    (pre post : List (NamedVoter V)) (z n : NamedVoter V)
    (hz : z.Voter.VoteOnAccess ctx c = (0, none))
    (hn : n.Voter.VoteOnAccess ctx c = (VoterNeutral, none)) :
    (VoterResult.IsZero 0 = true ∧ VoterResult.IsZero VoterNeutral = false ∧
      VoterResult.IsZero VoterNoSupport = false ∧ VoterResult.IsZero VoterAgree = false ∧
      VoterResult.IsZero VoterDeny = false) ∧
    (DefaultManager.CheckPermission { Voters := pre ++ z :: post } ctx c).err =
      (DefaultManager.CheckPermission { Voters := pre ++ n :: post } ctx c).err ∧
    (DefaultManager.CheckPermission { Voters := pre ++ z :: post } ctx c).val.IsAllowed =
      (DefaultManager.CheckPermission { Voters := pre ++ n :: post } ctx c).val.IsAllowed ∧
    (DefaultManager.CheckPermission { Voters := pre ++ z :: post } ctx c).calls =
      (DefaultManager.CheckPermission { Voters := pre ++ n :: post } ctx c).calls ∧
    ((∀ v ∈ pre ++ post, v.voteErr ctx c = none) →
      (DefaultManager.CheckPermission { Voters := pre ++ z :: post } ctx c).err = none) ∧
    ((∀ w ∈ pre, w.voteErr ctx c = none ∧ w.vote ctx c ≠ VoterDeny) →
      (z.Name ∉ post.map (fun v => v.Name) →
        (DefaultManager.CheckPermission { Voters := pre ++ z :: post } ctx c).val.entry z.Name
          = some 0) ∧
      (n.Name ∉ post.map (fun v => v.Name) →
        (DefaultManager.CheckPermission { Voters := pre ++ n :: post } ctx c).val.entry n.Name
          = some VoterNeutral)) := by
  have hz1 : z.voteErr ctx c = none := by simp [NamedVoter.voteErr, hz]
  have hz2 : z.vote ctx c = 0 := by simp [NamedVoter.vote, hz]
  have hn1 : n.voteErr ctx c = none := by simp [NamedVoter.voteErr, hn]
  have hn2 : n.vote ctx c = VoterNeutral := by simp [NamedVoter.vote, hn]
  have h := CheckPermission_loop_swap ctx c pre post z n hz1
    (by rw [hz2]; decide) (by rw [hz2]; decide) hn1
    (by rw [hn2]; decide) (by rw [hn2]; decide) 0
    { CheckResult.zero V with VoterResults := some [] }
    { CheckResult.zero V with VoterResults := some [] } 0 [] rfl
  refine ⟨by decide, h.1, h.2.1, h.2.2, ?_, ?_⟩
  · intro hne
    apply CheckPermission_err_of_no_error
    intro v hv
    simp only [List.mem_append, List.mem_cons] at hv
    rcases hv with hv | hv | hv
    · exact hne v (List.mem_append.mpr (Or.inl hv))
    · rw [hv]; exact hz1
    · exact hne v (List.mem_append.mpr (Or.inr hv))
  · intro hpre
    constructor
    · intro hnot
      have he := CheckPermission_entry_of_evaluated { Voters := pre ++ z :: post } ctx c
        pre post z rfl hpre hz1 hnot
      rw [he, hz2]
    · intro hnot
      have he := CheckPermission_entry_of_evaluated { Voters := pre ++ n :: post } ctx c
        pre post n rfl hpre hn1 hnot
      rw [he, hn2]

/-- Witness of amended C11: the list [`z` returns zero, `a` agrees] gives the error and
the decision of the list [`z` votes Neutral, `a` agrees], the error is nil, and the
zero value is recorded under `z`. -/
theorem CheckPermission_zero_as_neutral_witness :
    (DefaultManager.CheckPermission
        { Voters := [] ++ { Voter := Example.constVoter 0, Name := "z" } ::
            [{ Voter := Example.constVoter VoterAgree, Name := "a" }] }
        Example.ctx Example.editCheck).val.IsAllowed =
      (DefaultManager.CheckPermission
        { Voters := [] ++ { Voter := Example.constVoter VoterNeutral, Name := "z" } ::
            [{ Voter := Example.constVoter VoterAgree, Name := "a" }] }
        Example.ctx Example.editCheck).val.IsAllowed ∧
    (DefaultManager.CheckPermission
        { Voters := [] ++ { Voter := Example.constVoter 0, Name := "z" } ::
            [{ Voter := Example.constVoter VoterAgree, Name := "a" }] }
        Example.ctx Example.editCheck).err = none ∧
    (DefaultManager.CheckPermission
        { Voters := [] ++ { Voter := Example.constVoter 0, Name := "z" } ::
            [{ Voter := Example.constVoter VoterAgree, Name := "a" }] }
        Example.ctx Example.editCheck).val.entry "z" = some 0 :=
  have h := CheckPermission_zero_as_neutral Example.ctx Example.editCheck []
    [{ Voter := Example.constVoter VoterAgree, Name := "a" }]
    { Voter := Example.constVoter 0, Name := "z" }
    { Voter := Example.constVoter VoterNeutral, Name := "z" } rfl rfl
  ⟨h.2.2.1, h.2.2.2.2.1 (by decide), (h.2.2.2.2.2 (by decide)).1 (by decide)⟩

/-- C22. For every check `c` and every voter list, whatever the voters return, the
`CheckResult` returned by `CheckPermission` has `Permission` equal to the empty string
and `User` and `Subject` equal to nil: the triple of the check is never copied into
the result, in which only `IsAllowed` and the allocated map `VoterResults` are set. -/
theorem CheckPermission_result_fields {V : Type} (dm : DefaultManager V) (ctx : Context)
    (c : Check V) :
    (dm.CheckPermission ctx c).val.Permission = "" ∧
    (dm.CheckPermission ctx c).val.User = none ∧
    (dm.CheckPermission ctx c).val.Subject = none ∧
    (dm.CheckPermission ctx c).val.VoterResults ≠ none := by
  have h := CheckPermission_loop_fields ctx c dm.Voters 0
    { CheckResult.zero V with VoterResults := some [] } 0 []
  refine ⟨h.1, h.2.1, h.2.2.1, ?_⟩
  have hs := h.2.2.2 rfl
  intro hnone
  unfold DefaultManager.CheckPermission at hnone
  rw [hnone] at hs
  simp at hs

/-- Witness of C22: the check asks for permission `edit` with a non-nil user and
subject; the result of the `owner`/`admin` manager carries none of the three. -/
theorem CheckPermission_result_fields_witness :
    Example.editCheck.Permission = "edit" ∧ Example.editCheck.User = some 1 ∧
    Example.editCheck.Subject = some 2 ∧
    (Example.ownerAdmin.CheckPermission Example.ctx Example.editCheck).val.Permission = "" ∧
    (Example.ownerAdmin.CheckPermission Example.ctx Example.editCheck).val.User = none ∧
    (Example.ownerAdmin.CheckPermission Example.ctx Example.editCheck).val.Subject = none :=
  have h := CheckPermission_result_fields Example.ownerAdmin Example.ctx Example.editCheck
  ⟨rfl, rfl, rfl, h.1, h.2.1, h.2.2.1⟩

end Perm

/-! ## The auth engine and the session engine: claims -/

/-- C3 as stated fails: with one provider returning user data and an authenticator
that returns a token together with an error, both methods return a non-nil token
together with a non-nil error. -/
theorem Authenticate_token_with_error :
    ((Example.authEngine [Example.constProvider 42]
        Example.tokenAndErrorAuthenticator).AuthenticateAuthData Example.ctx (some 1)).val
      = some 7 ∧
    ((Example.authEngine [Example.constProvider 42]
        Example.tokenAndErrorAuthenticator).AuthenticateAuthData Example.ctx (some 1)).err
      = some (GoError.errorString "authenticator failed") ∧
    ((Example.authEngine [Example.constProvider 42]
        Example.tokenAndErrorAuthenticator).AuthenticateRequest Example.ctx { id := 1 }).val
      = some 7 ∧
    ((Example.authEngine [Example.constProvider 42]
        Example.tokenAndErrorAuthenticator).AuthenticateRequest Example.ctx { id := 1 }).err
      = some (GoError.errorString "authenticator failed") := by
  decide

/-- C3, amended. For every credential parser, provider list and input, and every
authenticator that itself never returns a non-nil token together with a non-nil
error, `AuthenticateAuthData` and `AuthenticateRequest` never return a non-nil
token together with a non-nil error. -/
theorem Authenticate_no_token_with_error {A U T : Type} (dae : DefaultAuthEngine A U T)
    (ctx : Context)
    (hA : ∀ ad ud, (dae.Authenticator.Authenticate ctx ad ud).1 = none ∨
      (dae.Authenticator.Authenticate ctx ad ud).2 = none) :
    (∀ ad, (dae.AuthenticateAuthData ctx ad).val = none ∨
      (dae.AuthenticateAuthData ctx ad).err = none) ∧
    (∀ r, (dae.AuthenticateRequest ctx r).val = none ∨
      (dae.AuthenticateRequest ctx r).err = none) := by
  have hloop : ∀ (ad : Option A) (calls : List (AuthCall A U)),
      (AuthenticateAuthData.loop dae ctx ad dae.UserDataProviders 0 none calls).val = none ∨
      (AuthenticateAuthData.loop dae ctx ad dae.UserDataProviders 0 none calls).err = none := by
    intro ad calls
    rcases AuthenticateAuthData_loop_val dae ctx ad dae.UserDataProviders 0 none calls with
      h | ⟨ud, h1, h2⟩
    · exact Or.inl h
    · rw [h1, h2]; exact hA ad ud
  constructor
  · intro ad
    exact hloop ad []
  · intro r
    unfold DefaultAuthEngine.AuthenticateRequest
    simp only [AuthenticateRequest_loop_eq]
    split
    · exact Or.inl rfl
    · exact hloop _ _

/-- Witness of amended C3: the authenticator of the three-provider engine returns no
error, and the engine returns the token `42` with a nil error. -/
theorem Authenticate_no_token_with_error_witness :
    (∀ ad ud, (Example.threeProviders.Authenticator.Authenticate Example.ctx ad ud).1 = none ∨
      (Example.threeProviders.Authenticator.Authenticate Example.ctx ad ud).2 = none) ∧
    ((Example.threeProviders.AuthenticateAuthData Example.ctx (some 1)).val = none ∨
      (Example.threeProviders.AuthenticateAuthData Example.ctx (some 1)).err = none) ∧
    ((Example.threeProviders.AuthenticateRequest Example.ctx { id := 1 }).val = none ∨
      (Example.threeProviders.AuthenticateRequest Example.ctx { id := 1 }).err = none) :=
  ⟨fun _ _ => Or.inr rfl,
   (Authenticate_no_token_with_error Example.threeProviders Example.ctx
      (fun _ _ => Or.inr rfl)).1 (some 1),
   (Authenticate_no_token_with_error Example.threeProviders Example.ctx
      (fun _ _ => Or.inr rfl)).2 { id := 1 }⟩

/-- C4 fails on the code: no validator is configured and the one refiller of the
chain declines with `ErrAuthDataNotSupported`; both methods return the deserialized
token `5` together with the refiller's `ErrAuthDataNotSupported`, not a nil error. -/
theorem GetAuthToken_decline_surfaces :
    ((Example.sessionEngine none [Example.decliningRefiller]).GetRawAuthToken
        Example.ctx []).val = some 5 ∧
    ((Example.sessionEngine none [Example.decliningRefiller]).GetRawAuthToken
        Example.ctx []).err = some GoError.ErrAuthDataNotSupported ∧
    ((Example.sessionEngine none [Example.decliningRefiller]).GetRequestAuthToken
        Example.ctx { id := 1 }).val = some 5 ∧
    ((Example.sessionEngine none [Example.decliningRefiller]).GetRequestAuthToken
        Example.ctx { id := 1 }).err = some GoError.ErrAuthDataNotSupported := by
  decide

/-- The defect behind C4 in general: with no validator configured and a non-empty
chain in which every refiller declines, `GetRawAuthToken` and `GetRequestAuthToken`
return the deserialized token together with the error of the last refiller, which
is not nil. -/
theorem GetAuthToken_all_decline_no_validator {T : Type} (dse : DefaultSessionEngine T)
    (ctx : Context) (tok : Option T) (hval : dse.AuthTokenValidator = none)
    (hne : dse.AuthTokenRefillers ≠ [])
    (hrs : ∀ q ∈ dse.AuthTokenRefillers, q.declines ctx tok) :
    (∀ rat, dse.AuthTokenDeserializer.DeserializeAuthToken ctx rat = (tok, none) →
      (dse.GetRawAuthToken ctx rat).val = tok ∧
      (dse.GetRawAuthToken ctx rat).err =
        errAfterRefillers ctx tok none dse.AuthTokenRefillers ∧
      (dse.GetRawAuthToken ctx rat).err ≠ none) ∧
    (∀ r, dse.HTTPAuthTokenDeserializer.DeserializeAuthTokenFromRequest ctx r = (tok, none) →
      (dse.GetRequestAuthToken ctx r).val = tok ∧
      (dse.GetRequestAuthToken ctx r).err =
        errAfterRefillers ctx tok none dse.AuthTokenRefillers ∧
      (dse.GetRequestAuthToken ctx r).err ≠ none) := by
  have hpass : preRefillPasses dse ctx tok := by
    intro v hv; rw [hval] at hv; cases hv
  have hsome : errAfterRefillers ctx tok none dse.AuthTokenRefillers ≠ none := by
    intro h
    have := errAfterRefillers_isSome ctx tok dse.AuthTokenRefillers hne hrs none
    rw [h] at this
    simp [errorsIs] at this
  constructor
  · intro rat hd
    rw [GetRawAuthToken_prelude dse ctx rat tok hd hpass,
      GetRawAuthToken_loop_of_all_decline dse ctx tok hval _ hrs]
    exact ⟨rfl, rfl, hsome⟩
  · intro r hd
    rw [GetRequestAuthToken_prelude dse ctx r tok hd hpass,
      GetRawAuthToken_loop_of_all_decline dse ctx tok hval _ hrs]
    exact ⟨rfl, rfl, hsome⟩

/-- C5. If deserialization and pre-refill validation succeed and the first refiller
of the chain that does not decline returns `(t', nil)`, then `GetRawAuthToken` (and
`GetRequestAuthToken`) returns exactly `(t', nil)`, invokes the refillers up to that
one and none after it, and never invokes `ValidateAfterRefill`, whatever the
configured validator's `ValidateAfterRefill` would say of `t'`. -/
theorem GetAuthToken_first_success {T : Type} (dse : DefaultSessionEngine T) (ctx : Context)
    (tok tok' : Option T) (pre post : List (AuthTokenRefiller T)) (r : AuthTokenRefiller T)
    (hs : dse.AuthTokenRefillers = pre ++ r :: post)
    (hv : preRefillPasses dse ctx tok)
    (hpre : ∀ q ∈ pre, q.declines ctx tok)
    (hr : r.ProcessAuthToken ctx tok = (tok', none)) :
    (∀ rat, dse.AuthTokenDeserializer.DeserializeAuthToken ctx rat = (tok, none) →
      (dse.GetRawAuthToken ctx rat).val = tok' ∧
      (dse.GetRawAuthToken ctx rat).err = none ∧
      (dse.GetRawAuthToken ctx rat).calls =
        SessionCall.DeserializeAuthToken rat :: preRefillCalls dse tok ++
          processAuthTokenCalls tok 0 (pre.length + 1) ∧
      (∀ j x, pre.length < j →
        SessionCall.ProcessAuthToken j x ∉ (dse.GetRawAuthToken ctx rat).calls) ∧
      (∀ x, SessionCall.ValidateAfterRefill x ∉ (dse.GetRawAuthToken ctx rat).calls)) ∧
    (∀ req, dse.HTTPAuthTokenDeserializer.DeserializeAuthTokenFromRequest ctx req =
        (tok, none) →
      (dse.GetRequestAuthToken ctx req).val = tok' ∧
      (dse.GetRequestAuthToken ctx req).err = none ∧
      (dse.GetRequestAuthToken ctx req).calls =
        SessionCall.DeserializeAuthTokenFromRequest req :: preRefillCalls dse tok ++
          processAuthTokenCalls tok 0 (pre.length + 1) ∧
      (∀ j x, pre.length < j →
        SessionCall.ProcessAuthToken j x ∉ (dse.GetRequestAuthToken ctx req).calls) ∧
      (∀ x, SessionCall.ValidateAfterRefill x ∉ (dse.GetRequestAuthToken ctx req).calls)) := by
  have hno : ∀ (first : SessionCall T),
      (∀ j x, first ≠ SessionCall.ProcessAuthToken j x) →
      (∀ x, first ≠ SessionCall.ValidateAfterRefill x) →
      (∀ j x, pre.length < j → SessionCall.ProcessAuthToken j x ∉
        first :: preRefillCalls dse tok ++ processAuthTokenCalls tok 0 (pre.length + 1)) ∧
      (∀ x, SessionCall.ValidateAfterRefill x ∉
        first :: preRefillCalls dse tok ++ processAuthTokenCalls tok 0 (pre.length + 1)) := by
    intro first h1 h2
    constructor
    · intro j x hj hmem
      rcases List.mem_cons.mp hmem with h | h
      · exact h1 j x h.symm
      · rcases List.mem_append.mp h with h | h
        · have := mem_preRefillCalls dse tok _ h
          cases this
        · obtain ⟨k, _, hk, hx⟩ := (mem_processAuthTokenCalls tok 0 _ _).mp h
          injection hx with hjk _
          omega
    · intro x hmem
      rcases List.mem_cons.mp hmem with h | h
      · exact h2 x h.symm
      · rcases List.mem_append.mp h with h | h
        · have := mem_preRefillCalls dse tok _ h
          cases this
        · obtain ⟨k, _, _, hx⟩ := (mem_processAuthTokenCalls tok 0 _ _).mp h
          cases hx
  constructor
  · intro rat hd
    rw [GetRawAuthToken_prelude dse ctx rat tok hd hv, hs,
      GetRawAuthToken_loop_of_success dse ctx tok tok' pre post r hpre hr]
    have h := hno (SessionCall.DeserializeAuthToken rat)
      (fun _ _ h => by cases h) (fun _ h => by cases h)
    exact ⟨rfl, rfl, rfl, h.1, h.2⟩
  · intro req hd
    rw [GetRequestAuthToken_prelude dse ctx req tok hd hv, hs,
      GetRawAuthToken_loop_of_success dse ctx tok tok' pre post r hpre hr]
    have h := hno (SessionCall.DeserializeAuthTokenFromRequest req)
      (fun _ _ h => by cases h) (fun _ h => by cases h)
    exact ⟨rfl, rfl, rfl, h.1, h.2⟩

/-- Witness of C5: the chain is [R1 declines, R2 replaces the token by `9`] and the
validator rejects every token after the refill; `GetRawAuthToken` still returns
`(9, nil)`. -/
theorem GetAuthToken_first_success_witness :
    preRefillPasses
      (Example.sessionEngine (some Example.rejectAfterRefill)
        [Example.decliningRefiller, Example.replacingRefiller 9]) Example.ctx (some 5) ∧
    (Example.rejectAfterRefill.ValidateAfterRefill Example.ctx (some 9)).isSome = true ∧
    ((Example.sessionEngine (some Example.rejectAfterRefill)
        [Example.decliningRefiller, Example.replacingRefiller 9]).GetRawAuthToken
          Example.ctx []).val = some 9 ∧
    ((Example.sessionEngine (some Example.rejectAfterRefill)
        [Example.decliningRefiller, Example.replacingRefiller 9]).GetRawAuthToken
          Example.ctx []).err = none :=
  have hv : preRefillPasses
      (Example.sessionEngine (some Example.rejectAfterRefill)
        [Example.decliningRefiller, Example.replacingRefiller 9]) Example.ctx (some 5) :=
    fun v h => by cases h; rfl
  have h := (GetAuthToken_first_success
    (Example.sessionEngine (some Example.rejectAfterRefill)
      [Example.decliningRefiller, Example.replacingRefiller 9]) Example.ctx (some 5) (some 9)
    [Example.decliningRefiller] [] (Example.replacingRefiller 9) rfl hv
    (by intro q hq; simp only [List.mem_singleton] at hq; subst hq; rfl) rfl).1 [] rfl
  ⟨hv, rfl, h.1, h.2.1⟩

/-- C6. For every credential value `ad` and provider list in which provider `i`
returns non-nil user data `u` with a nil error and every provider before `i`
declines with `ErrAuthDataNotSupported`, `AuthenticateAuthData` returns exactly what
`Authenticator.Authenticate(ad, u)` returns, and no provider after `i` is invoked. -/
theorem AuthenticateAuthData_first_user_data {A U T : Type} (dae : DefaultAuthEngine A U T)
    (ctx : Context) (ad : Option A) (pre post : List (UserDataProvider A U))
    (p : UserDataProvider A U) (u : U)
    (hs : dae.UserDataProviders = pre ++ p :: post)
    (hpre : ∀ q ∈ pre, q.declines ctx ad)
    (hp : p.GetUserData ctx ad = (some u, none)) :
    (dae.AuthenticateAuthData ctx ad).val =
      (dae.Authenticator.Authenticate ctx ad (some u)).1 ∧
    (dae.AuthenticateAuthData ctx ad).err =
      (dae.Authenticator.Authenticate ctx ad (some u)).2 ∧
    (dae.AuthenticateAuthData ctx ad).calls =
      getUserDataCalls U ad 0 (pre.length + 1) ++ [AuthCall.Authenticate ad (some u)] ∧
    (∀ j x, pre.length < j →
      AuthCall.GetUserData j x ∉ (dae.AuthenticateAuthData ctx ad).calls) := by
  rw [AuthenticateAuthData_of_found dae ctx ad pre post p u hs
    (fun q hq => Or.inl (hpre q hq)) hp]
  refine ⟨rfl, rfl, rfl, ?_⟩
  intro j x hj hmem
  rcases List.mem_append.mp hmem with h | h
  · obtain ⟨k, _, hk, hx⟩ := (mem_getUserDataCalls ad 0 _ _).mp h
    injection hx with hjk _
    omega
  · simp at h

/-- Witness of C6: P1 is unsupported, P2 returns user data `42`, P3 would return `99`;
the authenticator receives `42` and P3 is not called. -/
theorem AuthenticateAuthData_first_user_data_witness :
    (Example.threeProviders.AuthenticateAuthData Example.ctx (some 1)).val = some 42 ∧
    (Example.threeProviders.AuthenticateAuthData Example.ctx (some 1)).calls =
      [AuthCall.GetUserData 0 (some 1), AuthCall.GetUserData 1 (some 1),
        AuthCall.Authenticate (some 1) (some 42)] ∧
    (∀ x, AuthCall.GetUserData 2 x ∉
      (Example.threeProviders.AuthenticateAuthData Example.ctx (some 1)).calls) :=
  have h := AuthenticateAuthData_first_user_data Example.threeProviders Example.ctx (some 1)
    [Example.unsupportedProvider] [Example.constProvider 99] (Example.constProvider 42) 42 rfl
    (by intro q hq; simp only [List.mem_singleton] at hq; subst hq; rfl) rfl
  ⟨h.1, h.2.2.1, fun x => h.2.2.2 2 x (by decide)⟩

/-- C7. For every credential value and every provider list, the empty one included,
in which each provider either signals `ErrAuthDataNotSupported` or returns nil user
data with a nil error, `AuthenticateAuthData` returns a nil token and exactly
`ErrNoUserData`, and the authenticator is never invoked. -/
theorem AuthenticateAuthData_no_user_data {A U T : Type} (dae : DefaultAuthEngine A U T)
    (ctx : Context) (ad : Option A)
    (h : ∀ q ∈ dae.UserDataProviders,
      q.declines ctx ad ∨ q.GetUserData ctx ad = (none, none)) :
    (dae.AuthenticateAuthData ctx ad).val = none ∧
    (dae.AuthenticateAuthData ctx ad).err = some GoError.ErrNoUserData ∧
    errorsIs (dae.AuthenticateAuthData ctx ad).err GoError.ErrAuthDataNotSupported = false ∧
    (dae.AuthenticateAuthData ctx ad).calls =
      getUserDataCalls U ad 0 dae.UserDataProviders.length ∧
    (∀ x y, AuthCall.Authenticate x y ∉ (dae.AuthenticateAuthData ctx ad).calls) := by
  rw [AuthenticateAuthData_of_nothing dae ctx ad h]
  refine ⟨rfl, rfl, rfl, rfl, ?_⟩
  intro x y hmem
  obtain ⟨k, _, _, hx⟩ := (mem_getUserDataCalls ad 0 _ _).mp hmem
  cases hx

/-- Witness of C7: one provider declines and one returns `(nil, nil)`; the engine
fails with `ErrNoUserData`. -/
theorem AuthenticateAuthData_no_user_data_witness :
    (∀ q ∈ (Example.authEngine [Example.unsupportedProvider, Example.nilProvider]
          Example.idAuthenticator).UserDataProviders,
      q.declines Example.ctx (some 1) ∨ q.GetUserData Example.ctx (some 1) = (none, none)) ∧
    ((Example.authEngine [Example.unsupportedProvider, Example.nilProvider]
        Example.idAuthenticator).AuthenticateAuthData Example.ctx (some 1)).val = none ∧
    ((Example.authEngine [Example.unsupportedProvider, Example.nilProvider]
        Example.idAuthenticator).AuthenticateAuthData Example.ctx (some 1)).err =
      some GoError.ErrNoUserData :=
  have hq : ∀ q ∈ (Example.authEngine [Example.unsupportedProvider, Example.nilProvider]
          Example.idAuthenticator).UserDataProviders,
      q.declines Example.ctx (some 1) ∨ q.GetUserData Example.ctx (some 1) = (none, none) := by
    intro q hq
    simp only [Example.authEngine, List.mem_cons, List.mem_singleton, List.not_mem_nil,
      or_false] at hq
    rcases hq with hq | hq
    · subst hq; exact Or.inl rfl
    · subst hq; exact Or.inr rfl
  have h := AuthenticateAuthData_no_user_data
    (Example.authEngine [Example.unsupportedProvider, Example.nilProvider]
      Example.idAuthenticator) Example.ctx (some 1) hq
  ⟨hq, h.1, h.2.1⟩

/-- C8. If provider `i` returns an error `e` that is not `ErrAuthDataNotSupported`
(`errors.Is` is false of it) and every provider before `i` either declined or
returned nil user data without error, `AuthenticateAuthData` returns a nil token and
`e` unchanged, and neither a provider after `i` nor the authenticator is invoked. -/
theorem AuthenticateAuthData_provider_error {A U T : Type} (dae : DefaultAuthEngine A U T)
    (ctx : Context) (ad : Option A) (pre post : List (UserDataProvider A U))
    (p : UserDataProvider A U) (e : GoError)
    (hs : dae.UserDataProviders = pre ++ p :: post)
    (hpre : ∀ q ∈ pre, q.declines ctx ad ∨ q.GetUserData ctx ad = (none, none))
    (he : (p.GetUserData ctx ad).2 = some e)
    (hne : errorsIs (some e) GoError.ErrAuthDataNotSupported = false) :
    (dae.AuthenticateAuthData ctx ad).val = none ∧
    (dae.AuthenticateAuthData ctx ad).err = some e ∧
    (dae.AuthenticateAuthData ctx ad).calls = getUserDataCalls U ad 0 (pre.length + 1) ∧
    (∀ j x, pre.length < j →
      AuthCall.GetUserData j x ∉ (dae.AuthenticateAuthData ctx ad).calls) ∧
    (∀ x y, AuthCall.Authenticate x y ∉ (dae.AuthenticateAuthData ctx ad).calls) := by
  rw [AuthenticateAuthData_of_error dae ctx ad pre post p e hs hpre he hne]
  refine ⟨rfl, rfl, rfl, ?_, ?_⟩
  · intro j x hj hmem
    obtain ⟨k, _, hk, hx⟩ := (mem_getUserDataCalls ad 0 _ _).mp hmem
    injection hx with hjk _
    omega
  · intro x y hmem
    obtain ⟨k, _, _, hx⟩ := (mem_getUserDataCalls ad 0 _ _).mp hmem
    cases hx

/-- Witness of C8: P1 declines, P2 fails with a `ProviderFiledError`, P3 would return
user data; the engine returns the error of P2 and a nil token. -/
theorem AuthenticateAuthData_provider_error_witness :
    errorsIs (some (GoError.ProviderFiledError (GoError.errorString "non 200 HTTP response")))
      GoError.ErrAuthDataNotSupported = false ∧
    ((Example.authEngine [Example.unsupportedProvider,
        Example.failingProvider
          (GoError.ProviderFiledError (GoError.errorString "non 200 HTTP response")),
        Example.constProvider 99] Example.idAuthenticator).AuthenticateAuthData
          Example.ctx (some 1)).val = none ∧
    ((Example.authEngine [Example.unsupportedProvider,
        Example.failingProvider
          (GoError.ProviderFiledError (GoError.errorString "non 200 HTTP response")),
        Example.constProvider 99] Example.idAuthenticator).AuthenticateAuthData
          Example.ctx (some 1)).err =
      some (GoError.ProviderFiledError (GoError.errorString "non 200 HTTP response")) :=
  have h := AuthenticateAuthData_provider_error
    (Example.authEngine [Example.unsupportedProvider,
        Example.failingProvider
          (GoError.ProviderFiledError (GoError.errorString "non 200 HTTP response")),
        Example.constProvider 99] Example.idAuthenticator) Example.ctx (some 1)
    [Example.unsupportedProvider] [Example.constProvider 99]
    (Example.failingProvider
      (GoError.ProviderFiledError (GoError.errorString "non 200 HTTP response")))
    (GoError.ProviderFiledError (GoError.errorString "non 200 HTTP response")) rfl
    (by intro q hq; simp only [List.mem_singleton] at hq; subst hq; exact Or.inl rfl) rfl
    (by decide)
  ⟨by decide, h.1, h.2.1⟩

/-- C12. For every token implementing `HasSecretInfo`, `SerializerAuthToken` and
`SerializeAuthTokenToResponse` invoke `StripSecretInfo` exactly once and before the
serializer: the serializer receives the stripped token and its output on the
stripped token is what is returned.  For a token without the capability (the `nil`
token included) the serializer receives the token unchanged and its output is
returned unchanged. -/
theorem SerializeAuthToken_strips_first {A U T : Type} (dae : DefaultAuthEngine A U T)
    (hsi : HasSecretInfo T) (ctx : Context) (tok : Option T) (w : ResponseWriter) :
    (∀ x x', tok = some x → hsi.StripSecretInfo x = some x' →
      (dae.SerializerAuthToken hsi ctx tok).val =
        (dae.AuthTokenSerializer.SerializeAuthToken ctx (some x')).1 ∧
      (dae.SerializerAuthToken hsi ctx tok).err =
        (dae.AuthTokenSerializer.SerializeAuthToken ctx (some x')).2 ∧
      (dae.SerializerAuthToken hsi ctx tok).calls =
        [SerializeCall.StripSecretInfo x, SerializeCall.SerializeAuthToken (some x')] ∧
      (dae.SerializeAuthTokenToResponse hsi ctx tok w).val =
        (dae.HTTPAuthTokenSerializer.SerializeAuthTokenToResponse ctx (some x') w).1 ∧
      (dae.SerializeAuthTokenToResponse hsi ctx tok w).err =
        (dae.HTTPAuthTokenSerializer.SerializeAuthTokenToResponse ctx (some x') w).2 ∧
      (dae.SerializeAuthTokenToResponse hsi ctx tok w).calls =
        [SerializeCall.StripSecretInfo x,
          SerializeCall.SerializeAuthTokenToResponse (some x') w]) ∧
    ((∀ x, tok = some x → hsi.StripSecretInfo x = none) →
      (dae.SerializerAuthToken hsi ctx tok).val =
        (dae.AuthTokenSerializer.SerializeAuthToken ctx tok).1 ∧
      (dae.SerializerAuthToken hsi ctx tok).err =
        (dae.AuthTokenSerializer.SerializeAuthToken ctx tok).2 ∧
      (dae.SerializerAuthToken hsi ctx tok).calls = [SerializeCall.SerializeAuthToken tok] ∧
      (dae.SerializeAuthTokenToResponse hsi ctx tok w).val =
        (dae.HTTPAuthTokenSerializer.SerializeAuthTokenToResponse ctx tok w).1 ∧
      (dae.SerializeAuthTokenToResponse hsi ctx tok w).err =
        (dae.HTTPAuthTokenSerializer.SerializeAuthTokenToResponse ctx tok w).2 ∧
      (dae.SerializeAuthTokenToResponse hsi ctx tok w).calls =
        [SerializeCall.SerializeAuthTokenToResponse tok w]) := by
  constructor
  · intro x x' htok hx
    subst htok
    simp [DefaultAuthEngine.SerializerAuthToken, DefaultAuthEngine.SerializeAuthTokenToResponse,
      hx]
  · intro hno
    cases tok with
    | none =>
      simp [DefaultAuthEngine.SerializerAuthToken,
        DefaultAuthEngine.SerializeAuthTokenToResponse]
    | some x =>
      have hx := hno x rfl
      simp [DefaultAuthEngine.SerializerAuthToken,
        DefaultAuthEngine.SerializeAuthTokenToResponse, hx]

/-- Witness of C12: the token `4` has secret info and is stripped to `5`, which the
serializer writes as the byte `5`; the token `5` has none and is written as it is. -/
theorem SerializeAuthToken_strips_first_witness :
    (Example.byteAuthEngine.SerializerAuthToken Example.evenHasSecret Example.ctx
        (some 4)).val = [5] ∧
    (Example.byteAuthEngine.SerializerAuthToken Example.evenHasSecret Example.ctx
        (some 4)).calls =
      [SerializeCall.StripSecretInfo 4, SerializeCall.SerializeAuthToken (some 5)] ∧
    (Example.byteAuthEngine.SerializerAuthToken Example.evenHasSecret Example.ctx
        (some 5)).calls = [SerializeCall.SerializeAuthToken (some 5)] :=
  have h := SerializeAuthToken_strips_first Example.byteAuthEngine Example.evenHasSecret
    Example.ctx (some 4) { written := [] }
  have h' := SerializeAuthToken_strips_first Example.byteAuthEngine Example.evenHasSecret
    Example.ctx (some 5) { written := [] }
  ⟨(h.1 4 5 rfl rfl).1, (h.1 4 5 rfl rfl).2.2.1,
   (h'.2 (fun x hx => by cases hx; rfl)).2.2.1⟩

/-- C17. For every list of validators and every token, `ValidatePreRefill`
(respectively `ValidateAfterRefill`) of `AuthDataValidators` returns nil if and only
if every member's `ValidatePreRefill` (respectively `ValidateAfterRefill`) returns
nil, so the empty aggregate accepts every token; otherwise it returns exactly the
error of the first failing member in list order and invokes no member after it. -/
theorem AuthDataValidators_first_failure {T : Type} (advs : AuthDataValidators T)
    (ctx : Context) (tok : Option T) :
    (((AuthDataValidators.ValidatePreRefill advs ctx tok).err = none ↔
        ∀ v ∈ advs, v.ValidatePreRefill ctx tok = none) ∧
      (advs = [] → (AuthDataValidators.ValidatePreRefill advs ctx tok).err = none) ∧
      (∀ (pre post : List (AuthTokenValidator T)) (v : AuthTokenValidator T) (e : GoError),
        advs = pre ++ v :: post → (∀ w ∈ pre, w.ValidatePreRefill ctx tok = none) →
        v.ValidatePreRefill ctx tok = some e →
          (AuthDataValidators.ValidatePreRefill advs ctx tok).err = some e ∧
          (AuthDataValidators.ValidatePreRefill advs ctx tok).calls =
            validatePreRefillCalls tok 0 (pre.length + 1) ∧
          (∀ j x, pre.length < j → ValidatorCall.ValidatePreRefill j x ∉
            (AuthDataValidators.ValidatePreRefill advs ctx tok).calls))) ∧
    (((AuthDataValidators.ValidateAfterRefill advs ctx tok).err = none ↔
        ∀ v ∈ advs, v.ValidateAfterRefill ctx tok = none) ∧
      (advs = [] → (AuthDataValidators.ValidateAfterRefill advs ctx tok).err = none) ∧
      (∀ (pre post : List (AuthTokenValidator T)) (v : AuthTokenValidator T) (e : GoError),
        advs = pre ++ v :: post → (∀ w ∈ pre, w.ValidateAfterRefill ctx tok = none) →
        v.ValidateAfterRefill ctx tok = some e →
          (AuthDataValidators.ValidateAfterRefill advs ctx tok).err = some e ∧
          (AuthDataValidators.ValidateAfterRefill advs ctx tok).calls =
            validateAfterRefillCalls tok 0 (pre.length + 1) ∧
          (∀ j x, pre.length < j → ValidatorCall.ValidateAfterRefill j x ∉
            (AuthDataValidators.ValidateAfterRefill advs ctx tok).calls))) := by
  constructor
  · have hiff : (AuthDataValidators.ValidatePreRefill advs ctx tok).err = none ↔
        ∀ v ∈ advs, v.ValidatePreRefill ctx tok = none := by
      rcases Perm.split_at_first_failing (fun v : AuthTokenValidator T =>
          v.ValidatePreRefill ctx tok = none) advs with hall | ⟨pre, x, post, hs, hpre, hx⟩
      · rw [ValidatePreRefill_of_all_pass advs ctx tok hall]
        exact ⟨fun _ => hall, fun _ => rfl⟩
      · obtain ⟨e, he⟩ := Option.ne_none_iff_exists'.mp hx
        rw [ValidatePreRefill_of_reject advs ctx tok pre post x e hs hpre he]
        constructor
        · intro h; cases h
        · intro h
          exact absurd (h x (by rw [hs]; simp)) hx
    refine ⟨hiff, ?_, ?_⟩
    · intro hnil
      exact hiff.mpr (by rw [hnil]; simp)
    · intro pre post v e hs hpre hv
      rw [ValidatePreRefill_of_reject advs ctx tok pre post v e hs hpre hv]
      refine ⟨rfl, rfl, ?_⟩
      intro j x hj hmem
      simp only [validatePreRefillCalls, List.mem_map, List.mem_range'_1] at hmem
      obtain ⟨k, ⟨_, hk⟩, hkx⟩ := hmem
      injection hkx with hkj _
      omega
  · have hiff : (AuthDataValidators.ValidateAfterRefill advs ctx tok).err = none ↔
        ∀ v ∈ advs, v.ValidateAfterRefill ctx tok = none := by
      rcases Perm.split_at_first_failing (fun v : AuthTokenValidator T =>
          v.ValidateAfterRefill ctx tok = none) advs with hall | ⟨pre, x, post, hs, hpre, hx⟩
      · rw [ValidateAfterRefill_of_all_pass advs ctx tok hall]
        exact ⟨fun _ => hall, fun _ => rfl⟩
      · obtain ⟨e, he⟩ := Option.ne_none_iff_exists'.mp hx
        rw [ValidateAfterRefill_of_reject advs ctx tok pre post x e hs hpre he]
        constructor
        · intro h; cases h
        · intro h
          exact absurd (h x (by rw [hs]; simp)) hx
    refine ⟨hiff, ?_, ?_⟩
    · intro hnil
      exact hiff.mpr (by rw [hnil]; simp)
    · intro pre post v e hs hpre hv
      rw [ValidateAfterRefill_of_reject advs ctx tok pre post v e hs hpre hv]
      refine ⟨rfl, rfl, ?_⟩
      intro j x hj hmem
      simp only [validateAfterRefillCalls, List.mem_map, List.mem_range'_1] at hmem
      obtain ⟨k, ⟨_, hk⟩, hkx⟩ := hmem
      injection hkx with hkj _
      omega

/-- Witness of C17: in the aggregate [accepts, rejects before the refill, accepts] the
error of the second member is returned and the third member is not called. -/
theorem AuthDataValidators_first_failure_witness :
    (AuthDataValidators.ValidatePreRefill
        [Example.acceptAll, Example.rejectPreRefill (GoError.errorString "bad signature"),
          Example.acceptAll] Example.ctx (some 5)).err =
      some (GoError.errorString "bad signature") ∧
    (AuthDataValidators.ValidatePreRefill
        [Example.acceptAll, Example.rejectPreRefill (GoError.errorString "bad signature"),
          Example.acceptAll] Example.ctx (some 5)).calls =
      validatePreRefillCalls (some 5) 0 (1 + 1) ∧
    (AuthDataValidators.ValidatePreRefill ([] : AuthDataValidators Nat)
        Example.ctx (some 5)).err = none :=
  have h := (AuthDataValidators_first_failure
    [Example.acceptAll, Example.rejectPreRefill (GoError.errorString "bad signature"),
      Example.acceptAll] Example.ctx (some 5)).1.2.2
    [Example.acceptAll] [Example.acceptAll]
    (Example.rejectPreRefill (GoError.errorString "bad signature"))
    (GoError.errorString "bad signature") rfl
    (by intro w hw; simp only [List.mem_singleton] at hw; subst hw; rfl) rfl
  ⟨h.1, h.2.1,
   (AuthDataValidators_first_failure ([] : AuthDataValidators Nat) Example.ctx
      (some 5)).1.2.1 rfl⟩

/-- C13. For every deserialized token `t` and every refiller chain in which no refiller
succeeds (the chain is empty or every refiller declines), when a validator is
configured and pre-refill validation passes, `GetRawAuthToken` (and
`GetRequestAuthToken`) returns `t` with exactly the result of `ValidateAfterRefill`
on `t`: nil when it accepts and its error unchanged when it rejects. -/
theorem GetAuthToken_post_refill_validation {T : Type} (dse : DefaultSessionEngine T)
    (ctx : Context) (tok : Option T) (v : AuthTokenValidator T)
    (hval : dse.AuthTokenValidator = some v)
    (hpre : v.ValidatePreRefill ctx tok = none)
    (hrs : ∀ q ∈ dse.AuthTokenRefillers, q.declines ctx tok) :
    (∀ rat, dse.AuthTokenDeserializer.DeserializeAuthToken ctx rat = (tok, none) →
      (dse.GetRawAuthToken ctx rat).val = tok ∧
      (dse.GetRawAuthToken ctx rat).err = v.ValidateAfterRefill ctx tok ∧
      (dse.GetRawAuthToken ctx rat).calls =
        SessionCall.DeserializeAuthToken rat :: SessionCall.ValidatePreRefill tok ::
          (processAuthTokenCalls tok 0 dse.AuthTokenRefillers.length ++
            [SessionCall.ValidateAfterRefill tok])) ∧
    (∀ req, dse.HTTPAuthTokenDeserializer.DeserializeAuthTokenFromRequest ctx req =
        (tok, none) →
      (dse.GetRequestAuthToken ctx req).val = tok ∧
      (dse.GetRequestAuthToken ctx req).err = v.ValidateAfterRefill ctx tok ∧
      (dse.GetRequestAuthToken ctx req).calls =
        SessionCall.DeserializeAuthTokenFromRequest req :: SessionCall.ValidatePreRefill tok ::
          (processAuthTokenCalls tok 0 dse.AuthTokenRefillers.length ++
            [SessionCall.ValidateAfterRefill tok])) := by
  have hpass : preRefillPasses dse ctx tok := by
    intro w hw
    rw [hval] at hw
    cases hw
    exact hpre
  have hcalls : preRefillCalls dse tok = [SessionCall.ValidatePreRefill tok] := by
    simp [preRefillCalls, hval]
  constructor
  · intro rat hd
    rw [GetRawAuthToken_prelude dse ctx rat tok hd hpass,
      GetRawAuthToken_loop_of_all_decline_validated dse ctx tok v hval _ hrs, hcalls]
    exact ⟨rfl, rfl, by simp⟩
  · intro req hd
    rw [GetRequestAuthToken_prelude dse ctx req tok hd hpass,
      GetRawAuthToken_loop_of_all_decline_validated dse ctx tok v hval _ hrs, hcalls]
    exact ⟨rfl, rfl, by simp⟩

/-- Witness of C13: the one refiller declines and the validator rejects after the
refill; `GetRawAuthToken` returns the validator's error, not the refiller's. -/
theorem GetAuthToken_post_refill_validation_witness :
    ((Example.sessionEngine (some Example.rejectAfterRefill)
        [Example.decliningRefiller]).GetRawAuthToken Example.ctx []).val = some 5 ∧
    ((Example.sessionEngine (some Example.rejectAfterRefill)
        [Example.decliningRefiller]).GetRawAuthToken Example.ctx []).err =
      some (GoError.errorString "token expired") :=
  have h := (GetAuthToken_post_refill_validation
    (Example.sessionEngine (some Example.rejectAfterRefill) [Example.decliningRefiller])
    Example.ctx (some 5) Example.rejectAfterRefill rfl rfl
    (by intro q hq
        simp only [Example.sessionEngine, List.mem_singleton] at hq
        subst hq; rfl)).1 [] rfl
  ⟨h.1, h.2.1⟩

/-- C14. If deserialization succeeds and the configured validator's `ValidatePreRefill`
returns an error `e` on the deserialized token, `GetRawAuthToken` (and
`GetRequestAuthToken`) returns `e` unchanged and invokes no refiller and no
`ValidateAfterRefill`. -/
theorem GetAuthToken_pre_refill_rejects {T : Type} (dse : DefaultSessionEngine T)
    (ctx : Context) (tok : Option T) (v : AuthTokenValidator T) (e : GoError)
    (hval : dse.AuthTokenValidator = some v)
    (hpre : v.ValidatePreRefill ctx tok = some e) :
    (∀ rat, dse.AuthTokenDeserializer.DeserializeAuthToken ctx rat = (tok, none) →
      (dse.GetRawAuthToken ctx rat).err = some e ∧
      (dse.GetRawAuthToken ctx rat).calls =
        [SessionCall.DeserializeAuthToken rat, SessionCall.ValidatePreRefill tok] ∧
      (∀ j x, SessionCall.ProcessAuthToken j x ∉ (dse.GetRawAuthToken ctx rat).calls) ∧
      (∀ x, SessionCall.ValidateAfterRefill x ∉ (dse.GetRawAuthToken ctx rat).calls)) ∧
    (∀ req, dse.HTTPAuthTokenDeserializer.DeserializeAuthTokenFromRequest ctx req =
        (tok, none) →
      (dse.GetRequestAuthToken ctx req).err = some e ∧
      (dse.GetRequestAuthToken ctx req).calls =
        [SessionCall.DeserializeAuthTokenFromRequest req, SessionCall.ValidatePreRefill tok] ∧
      (∀ j x, SessionCall.ProcessAuthToken j x ∉ (dse.GetRequestAuthToken ctx req).calls) ∧
      (∀ x, SessionCall.ValidateAfterRefill x ∉ (dse.GetRequestAuthToken ctx req).calls)) := by
  constructor
  · intro rat hd
    have h : dse.GetRawAuthToken ctx rat =
        { val := tok, err := some e,
          calls := [SessionCall.DeserializeAuthToken rat,
            SessionCall.ValidatePreRefill tok] } := by
      simp [DefaultSessionEngine.GetRawAuthToken, hd, hval, hpre]
    rw [h]
    exact ⟨rfl, rfl, by simp, by simp⟩
  · intro req hd
    have h : dse.GetRequestAuthToken ctx req =
        { val := tok, err := some e,
          calls := [SessionCall.DeserializeAuthTokenFromRequest req,
            SessionCall.ValidatePreRefill tok] } := by
      simp [DefaultSessionEngine.GetRequestAuthToken, hd, hval, hpre]
    rw [h]
    exact ⟨rfl, rfl, by simp, by simp⟩

/-- Witness of C14: the validator rejects before the refill; its error is returned and
the replacing refiller of the chain is not called. -/
theorem GetAuthToken_pre_refill_rejects_witness :
    ((Example.sessionEngine (some (Example.rejectPreRefill (GoError.errorString "expired")))
        [Example.replacingRefiller 9]).GetRawAuthToken Example.ctx []).err =
      some (GoError.errorString "expired") ∧
    ((Example.sessionEngine (some (Example.rejectPreRefill (GoError.errorString "expired")))
        [Example.replacingRefiller 9]).GetRawAuthToken Example.ctx []).calls =
      [SessionCall.DeserializeAuthToken [], SessionCall.ValidatePreRefill (some 5)] :=
  have h := (GetAuthToken_pre_refill_rejects
    (Example.sessionEngine (some (Example.rejectPreRefill (GoError.errorString "expired")))
      [Example.replacingRefiller 9]) Example.ctx (some 5)
    (Example.rejectPreRefill (GoError.errorString "expired"))
    (GoError.errorString "expired") rfl rfl).1 [] rfl
  ⟨h.1, h.2.1⟩

/-- C15. If deserialization and pre-refill validation succeed and the first refiller
of the chain that does not decline returns an error `e` that is not
`ErrAuthDataNotSupported` (`errors.Is` is false of it), `GetRawAuthToken` (and
`GetRequestAuthToken`) returns `e` unchanged, invoking no later refiller and no
post-refill validation, whatever the refillers before it returned when declining. -/
theorem GetAuthToken_refiller_error {T : Type} (dse : DefaultSessionEngine T) (ctx : Context)
    (tok : Option T) (pre post : List (AuthTokenRefiller T)) (r : AuthTokenRefiller T)
    (e : GoError)
    (hs : dse.AuthTokenRefillers = pre ++ r :: post)
    (hv : preRefillPasses dse ctx tok)
    (hpre : ∀ q ∈ pre, q.declines ctx tok)
    (hr : (r.ProcessAuthToken ctx tok).2 = some e)
    (hne : errorsIs (some e) GoError.ErrAuthDataNotSupported = false) :
    (∀ rat, dse.AuthTokenDeserializer.DeserializeAuthToken ctx rat = (tok, none) →
      (dse.GetRawAuthToken ctx rat).err = some e ∧
      (dse.GetRawAuthToken ctx rat).calls =
        SessionCall.DeserializeAuthToken rat :: preRefillCalls dse tok ++
          processAuthTokenCalls tok 0 (pre.length + 1) ∧
      (∀ j x, pre.length < j →
        SessionCall.ProcessAuthToken j x ∉ (dse.GetRawAuthToken ctx rat).calls) ∧
      (∀ x, SessionCall.ValidateAfterRefill x ∉ (dse.GetRawAuthToken ctx rat).calls)) ∧
    (∀ req, dse.HTTPAuthTokenDeserializer.DeserializeAuthTokenFromRequest ctx req =
        (tok, none) →
      (dse.GetRequestAuthToken ctx req).err = some e ∧
      (dse.GetRequestAuthToken ctx req).calls =
        SessionCall.DeserializeAuthTokenFromRequest req :: preRefillCalls dse tok ++
          processAuthTokenCalls tok 0 (pre.length + 1) ∧
      (∀ j x, pre.length < j →
        SessionCall.ProcessAuthToken j x ∉ (dse.GetRequestAuthToken ctx req).calls) ∧
      (∀ x, SessionCall.ValidateAfterRefill x ∉ (dse.GetRequestAuthToken ctx req).calls)) := by
  constructor
  · intro rat hd
    rw [GetRawAuthToken_prelude dse ctx rat tok hd hv, hs,
      GetRawAuthToken_loop_of_failure dse ctx tok pre post r e hpre hr hne]
    have h := sessionCalls_not_mem dse tok (pre.length + 1) (SessionCall.DeserializeAuthToken rat)
      (fun _ _ h => by cases h) (fun _ h => by cases h)
    exact ⟨rfl, rfl, fun j x hj => h.1 j x hj, h.2⟩
  · intro req hd
    rw [GetRequestAuthToken_prelude dse ctx req tok hd hv, hs,
      GetRawAuthToken_loop_of_failure dse ctx tok pre post r e hpre hr hne]
    have h := sessionCalls_not_mem dse tok (pre.length + 1)
      (SessionCall.DeserializeAuthTokenFromRequest req)
      (fun _ _ h => by cases h) (fun _ h => by cases h)
    exact ⟨rfl, rfl, fun j x hj => h.1 j x hj, h.2⟩

/-- Witness of C15: the chain is [R1 declines, R2 fails, R3 would replace the token];
the error of R2 is returned and R3 is not called. -/
theorem GetAuthToken_refiller_error_witness :
    ((Example.sessionEngine none
        [Example.decliningRefiller,
          Example.failingRefiller (GoError.errorString "user store down"),
          Example.replacingRefiller 9]).GetRawAuthToken Example.ctx []).err =
      some (GoError.errorString "user store down") ∧
    (∀ x, SessionCall.ProcessAuthToken 2 x ∉
      ((Example.sessionEngine none
        [Example.decliningRefiller,
          Example.failingRefiller (GoError.errorString "user store down"),
          Example.replacingRefiller 9]).GetRawAuthToken Example.ctx []).calls) :=
  have h := (GetAuthToken_refiller_error
    (Example.sessionEngine none
      [Example.decliningRefiller,
        Example.failingRefiller (GoError.errorString "user store down"),
        Example.replacingRefiller 9]) Example.ctx (some 5)
    [Example.decliningRefiller] [Example.replacingRefiller 9]
    (Example.failingRefiller (GoError.errorString "user store down"))
    (GoError.errorString "user store down") rfl
    (fun v hv => by cases hv)
    (by intro q hq; simp only [List.mem_singleton] at hq; subst hq; rfl) rfl
    (by decide)).1 [] rfl
  ⟨h.1, fun x => h.2.2.1 2 x (by decide)⟩

/-- C16. If the deserializer returns an error `e`, `GetRawAuthToken` (and
`GetRequestAuthToken`) returns `e` unchanged and invokes neither a validator nor a
refiller: the deserializer call is the only call made. -/
theorem GetAuthToken_deserialize_error {T : Type} (dse : DefaultSessionEngine T)
    (ctx : Context) (e : GoError) :
    (∀ rat, (dse.AuthTokenDeserializer.DeserializeAuthToken ctx rat).2 = some e →
      (dse.GetRawAuthToken ctx rat).err = some e ∧
      (dse.GetRawAuthToken ctx rat).calls = [SessionCall.DeserializeAuthToken rat]) ∧
    (∀ req, (dse.HTTPAuthTokenDeserializer.DeserializeAuthTokenFromRequest ctx req).2 =
        some e →
      (dse.GetRequestAuthToken ctx req).err = some e ∧
      (dse.GetRequestAuthToken ctx req).calls =
        [SessionCall.DeserializeAuthTokenFromRequest req]) := by
  constructor
  · intro rat hd
    simp [DefaultSessionEngine.GetRawAuthToken, hd]
  · intro req hd
    simp [DefaultSessionEngine.GetRequestAuthToken, hd]

/-- Witness of C16: deserialization fails; its error is returned and neither the
validator nor the refiller of the engine is called. -/
theorem GetAuthToken_deserialize_error_witness :
    (DefaultSessionEngine.GetRawAuthToken
        { AuthTokenDeserializer := Example.brokenSerializer (GoError.errorString "bad mac"),
          HTTPAuthTokenDeserializer :=
            Example.brokenHTTPSerializer (GoError.errorString "bad mac"),
          AuthTokenValidator := some Example.acceptAll,
          AuthTokenRefillers := [Example.replacingRefiller 9] }
        Example.ctx []).err = some (GoError.errorString "bad mac") ∧
    (DefaultSessionEngine.GetRawAuthToken
        { AuthTokenDeserializer := Example.brokenSerializer (GoError.errorString "bad mac"),
          HTTPAuthTokenDeserializer :=
            Example.brokenHTTPSerializer (GoError.errorString "bad mac"),
          AuthTokenValidator := some Example.acceptAll,
          AuthTokenRefillers := [Example.replacingRefiller 9] }
        Example.ctx []).calls = [SessionCall.DeserializeAuthToken []] :=
  (GetAuthToken_deserialize_error
    { AuthTokenDeserializer := Example.brokenSerializer (GoError.errorString "bad mac"),
      HTTPAuthTokenDeserializer :=
        Example.brokenHTTPSerializer (GoError.errorString "bad mac"),
      AuthTokenValidator := some Example.acceptAll,
      AuthTokenRefillers := [Example.replacingRefiller 9] }
    Example.ctx (GoError.errorString "bad mac")).1 [] rfl

/-- C18. For every request `r`, `AuthenticateRequest(r)` is: when the parser returns an
error `e`, the pair (nil token, `e`) with the parser call as the only call made;
otherwise, for the parsed credentials `ad`, exactly the result of
`AuthenticateAuthData(ad)` on the same engine, whose calls follow the parser call. -/
theorem AuthenticateRequest_eq_AuthenticateAuthData {A U T : Type}
    (dae : DefaultAuthEngine A U T) (ctx : Context) (r : Request) :
    (∀ e, (dae.AuthDataParser.ParseAuthData ctx r).2 = some e →
      (dae.AuthenticateRequest ctx r).val = none ∧
      (dae.AuthenticateRequest ctx r).err = some e ∧
      (dae.AuthenticateRequest ctx r).calls = [AuthCall.ParseAuthData r]) ∧
    ((dae.AuthDataParser.ParseAuthData ctx r).2 = none →
      (dae.AuthenticateRequest ctx r).val =
        (dae.AuthenticateAuthData ctx (dae.AuthDataParser.ParseAuthData ctx r).1).val ∧
      (dae.AuthenticateRequest ctx r).err =
        (dae.AuthenticateAuthData ctx (dae.AuthDataParser.ParseAuthData ctx r).1).err ∧
      (dae.AuthenticateRequest ctx r).calls =
        AuthCall.ParseAuthData r ::
          (dae.AuthenticateAuthData ctx (dae.AuthDataParser.ParseAuthData ctx r).1).calls) := by
  constructor
  · intro e he
    simp [DefaultAuthEngine.AuthenticateRequest, he]
  · intro hnone
    have h := AuthenticateAuthData_loop_calls dae ctx (dae.AuthDataParser.ParseAuthData ctx r).1
      dae.UserDataProviders 0 none [AuthCall.ParseAuthData r] []
    rw [List.append_nil] at h
    simp only [DefaultAuthEngine.AuthenticateRequest, hnone, Option.isSome_none,
      Bool.false_eq_true, if_false, AuthenticateRequest_loop_eq,
      DefaultAuthEngine.AuthenticateAuthData]
    rw [h]
    exact ⟨rfl, rfl, rfl⟩

/-- Witness of C18: on a request the parser reads as the credential `1`,
`AuthenticateRequest` returns what `AuthenticateAuthData` returns on `1`; with a
failing parser it returns the parser's error and calls no provider. -/
theorem AuthenticateRequest_eq_AuthenticateAuthData_witness :
    (Example.threeProviders.AuthenticateRequest Example.ctx { id := 1 }).val =
      (Example.threeProviders.AuthenticateAuthData Example.ctx (some 1)).val ∧
    (DefaultAuthEngine.AuthenticateRequest
        { AuthDataParser := Example.failingParser (GoError.errorString "bad json"),
          UserDataProviders := [Example.constProvider 42],
          Authenticator := Example.idAuthenticator,
          AuthTokenSerializer := Example.fixedSerializer,
          HTTPAuthTokenSerializer := Example.fixedHTTPSerializer }
        Example.ctx { id := 1 }).calls = [AuthCall.ParseAuthData { id := 1 }] :=
  ⟨((AuthenticateRequest_eq_AuthenticateAuthData Example.threeProviders Example.ctx
      { id := 1 }).2 rfl).1,
   ((AuthenticateRequest_eq_AuthenticateAuthData
      { AuthDataParser := Example.failingParser (GoError.errorString "bad json"),
        UserDataProviders := [Example.constProvider 42],
        Authenticator := Example.idAuthenticator,
        AuthTokenSerializer := Example.fixedSerializer,
        HTTPAuthTokenSerializer := Example.fixedHTTPSerializer }
      Example.ctx { id := 1 }).1 (GoError.errorString "bad json") rfl).2.2⟩

/-- C19. For every validator, refiller chain, request `r` and byte string `b` such that
`DeserializeAuthTokenFromRequest(r)` and `DeserializeAuthToken(b)` return the same
(token, error), `GetRequestAuthToken(r)` and `GetRawAuthToken(b)` return the same
(token, error), and after their deserializer call they make the same calls on the
validator and the refillers, in the same order. -/
theorem GetAuthToken_same_shape {T : Type} (dse : DefaultSessionEngine T) (ctx : Context)
    (r : Request) (b : Bytes)
    (h : dse.HTTPAuthTokenDeserializer.DeserializeAuthTokenFromRequest ctx r =
      dse.AuthTokenDeserializer.DeserializeAuthToken ctx b) :
    (dse.GetRequestAuthToken ctx r).val = (dse.GetRawAuthToken ctx b).val ∧
    (dse.GetRequestAuthToken ctx r).err = (dse.GetRawAuthToken ctx b).err ∧
    ∃ rest, (dse.GetRequestAuthToken ctx r).calls =
        SessionCall.DeserializeAuthTokenFromRequest r :: rest ∧
      (dse.GetRawAuthToken ctx b).calls = SessionCall.DeserializeAuthToken b :: rest := by
  unfold DefaultSessionEngine.GetRequestAuthToken DefaultSessionEngine.GetRawAuthToken
  simp only [h, GetRequestAuthToken_loop_eq]
  split
  · exact ⟨rfl, rfl, [], rfl, rfl⟩
  · split
    · split
      · exact ⟨rfl, rfl, _, rfl, rfl⟩
      · have h1 := GetRawAuthToken_loop_calls dse ctx dse.AuthTokenRefillers 0
          (dse.AuthTokenDeserializer.DeserializeAuthToken ctx b).1
        rw [h1 _ [SessionCall.DeserializeAuthTokenFromRequest r],
          h1 _ [SessionCall.DeserializeAuthToken b]]
        exact ⟨rfl, rfl, _, rfl, rfl⟩
    · have h1 := GetRawAuthToken_loop_calls dse ctx dse.AuthTokenRefillers 0
        (dse.AuthTokenDeserializer.DeserializeAuthToken ctx b).1
        (dse.AuthTokenDeserializer.DeserializeAuthToken ctx b).2
      have h2 := h1 [SessionCall.DeserializeAuthTokenFromRequest r] []
      have h3 := h1 [SessionCall.DeserializeAuthToken b] []
      rw [List.append_nil] at h2 h3
      rw [h2, h3]
      exact ⟨rfl, rfl, _, rfl, rfl⟩

/-- Witness of C19: both deserializers of the engine yield the token `5`; with the
chain [R1 declines, R2 replaces the token by `9`] both methods return `9`. -/
theorem GetAuthToken_same_shape_witness :
    ((Example.sessionEngine (some Example.acceptAll)
        [Example.decliningRefiller, Example.replacingRefiller 9]).GetRequestAuthToken
          Example.ctx { id := 1 }).val =
      ((Example.sessionEngine (some Example.acceptAll)
        [Example.decliningRefiller, Example.replacingRefiller 9]).GetRawAuthToken
          Example.ctx []).val ∧
    ((Example.sessionEngine (some Example.acceptAll)
        [Example.decliningRefiller, Example.replacingRefiller 9]).GetRawAuthToken
          Example.ctx []).val = some 9 :=
  ⟨(GetAuthToken_same_shape
      (Example.sessionEngine (some Example.acceptAll)
        [Example.decliningRefiller, Example.replacingRefiller 9])
      Example.ctx { id := 1 } [] rfl).1, rfl⟩

/-- C20. Round trip: for every token `t` with no secret-stripping capability and every
serializer with `DeserializeAuthToken(SerializeAuthToken(t)) = t`, feeding the bytes
produced by `SerializerAuthToken(t)` to `GetRawAuthToken` with an empty refiller
chain returns `t`, and the call succeeds exactly when the configured validator
accepts `t`: the returned error is the validator's verdict on `t`. -/
theorem SerializeAuthToken_round_trip {A U T : Type} (dae : DefaultAuthEngine A U T)
    (dse : DefaultSessionEngine T) (hsi : HasSecretInfo T) (ser : AuthTokenSerializer T)
    (ctx : Context) (tok : Option T)
    (hcap : ∀ x, tok = some x → hsi.StripSecretInfo x = none)
    (hser : dae.AuthTokenSerializer = ser) (hdes : dse.AuthTokenDeserializer = ser)
    (hrt : ser.DeserializeAuthToken ctx (ser.SerializeAuthToken ctx tok).1 = (tok, none))
    (hrs : dse.AuthTokenRefillers = []) :
    (dse.GetRawAuthToken ctx (dae.SerializerAuthToken hsi ctx tok).val).val = tok ∧
    ((dse.GetRawAuthToken ctx (dae.SerializerAuthToken hsi ctx tok).val).err = none ↔
      validatorAccepts dse ctx tok) ∧
    (dse.AuthTokenValidator = none →
      (dse.GetRawAuthToken ctx (dae.SerializerAuthToken hsi ctx tok).val).err = none) ∧
    (∀ v, dse.AuthTokenValidator = some v →
      (dse.GetRawAuthToken ctx (dae.SerializerAuthToken hsi ctx tok).val).err =
        match v.ValidatePreRefill ctx tok with
        | some e => some e
        | none => v.ValidateAfterRefill ctx tok) := by
  have hbytes : (dae.SerializerAuthToken hsi ctx tok).val = (ser.SerializeAuthToken ctx tok).1 := by
    cases tok with
    | none => simp [DefaultAuthEngine.SerializerAuthToken, hser]
    | some x => simp [DefaultAuthEngine.SerializerAuthToken, hser, hcap x rfl]
  rw [hbytes]
  unfold validatorAccepts
  cases hval : dse.AuthTokenValidator with
  | none =>
    simp [DefaultSessionEngine.GetRawAuthToken, hdes, hrt, hval, hrs, GetRawAuthToken.loop,
      GetRawAuthToken.afterLoop]
  | some v =>
    cases hpre : v.ValidatePreRefill ctx tok with
    | some e =>
      simp [DefaultSessionEngine.GetRawAuthToken, hdes, hrt, hval, hrs, hpre]
    | none =>
      simp [DefaultSessionEngine.GetRawAuthToken, hdes, hrt, hval, hrs, hpre,
        GetRawAuthToken.loop, GetRawAuthToken.afterLoop]

/-- Witness of C20: the token `5` has no secret info and `byteSerializer` reads back
what it wrote; the bytes of `SerializerAuthToken(5)` are restored to the token `5`,
accepted by the accepting validator and rejected by the rejecting one. -/
theorem SerializeAuthToken_round_trip_witness :
    ((Example.byteSessionEngine (some Example.acceptAll) []).GetRawAuthToken Example.ctx
        (Example.byteAuthEngine.SerializerAuthToken Example.evenHasSecret Example.ctx
          (some 5)).val).val = some 5 ∧
    ((Example.byteSessionEngine (some Example.acceptAll) []).GetRawAuthToken Example.ctx
        (Example.byteAuthEngine.SerializerAuthToken Example.evenHasSecret Example.ctx
          (some 5)).val).err = none ∧
    ((Example.byteSessionEngine (some Example.rejectAfterRefill) []).GetRawAuthToken
        Example.ctx (Example.byteAuthEngine.SerializerAuthToken Example.evenHasSecret
          Example.ctx (some 5)).val).err = some (GoError.errorString "token expired") :=
  have h := SerializeAuthToken_round_trip Example.byteAuthEngine
    (Example.byteSessionEngine (some Example.acceptAll) []) Example.evenHasSecret
    Example.byteSerializer Example.ctx (some 5)
    (fun x hx => by cases hx; rfl) rfl rfl rfl rfl
  have h' := SerializeAuthToken_round_trip Example.byteAuthEngine
    (Example.byteSessionEngine (some Example.rejectAfterRefill) []) Example.evenHasSecret
    Example.byteSerializer Example.ctx (some 5)
    (fun x hx => by cases hx; rfl) rfl rfl rfl rfl
  ⟨h.1, h.2.2.2 Example.acceptAll rfl, h'.2.2.2 Example.rejectAfterRefill rfl⟩

/-- C21. When pre-refill or post-refill validation rejects the deserialized token `t`,
`GetRawAuthToken` and `GetRequestAuthToken` return `t` itself, non-nil whenever the
deserializer produced a non-nil token, together with the validation error; likewise
a fatal refiller error is returned together with `t`, whatever token the failing
refiller returned. -/
theorem GetAuthToken_error_keeps_token {T : Type} (dse : DefaultSessionEngine T)
    (ctx : Context) (tok : Option T) (e : GoError) :
    (∀ v, dse.AuthTokenValidator = some v → v.ValidatePreRefill ctx tok = some e →
      (∀ rat, dse.AuthTokenDeserializer.DeserializeAuthToken ctx rat = (tok, none) →
        (dse.GetRawAuthToken ctx rat).val = tok ∧
        (dse.GetRawAuthToken ctx rat).err = some e ∧
        (tok ≠ none → (dse.GetRawAuthToken ctx rat).val ≠ none)) ∧
      (∀ req, dse.HTTPAuthTokenDeserializer.DeserializeAuthTokenFromRequest ctx req =
          (tok, none) →
        (dse.GetRequestAuthToken ctx req).val = tok ∧
        (dse.GetRequestAuthToken ctx req).err = some e ∧
        (tok ≠ none → (dse.GetRequestAuthToken ctx req).val ≠ none))) ∧
    (∀ v, dse.AuthTokenValidator = some v → v.ValidatePreRefill ctx tok = none →
      (∀ q ∈ dse.AuthTokenRefillers, q.declines ctx tok) →
      v.ValidateAfterRefill ctx tok = some e →
      (∀ rat, dse.AuthTokenDeserializer.DeserializeAuthToken ctx rat = (tok, none) →
        (dse.GetRawAuthToken ctx rat).val = tok ∧
        (dse.GetRawAuthToken ctx rat).err = some e ∧
        (tok ≠ none → (dse.GetRawAuthToken ctx rat).val ≠ none)) ∧
      (∀ req, dse.HTTPAuthTokenDeserializer.DeserializeAuthTokenFromRequest ctx req =
          (tok, none) →
        (dse.GetRequestAuthToken ctx req).val = tok ∧
        (dse.GetRequestAuthToken ctx req).err = some e ∧
        (tok ≠ none → (dse.GetRequestAuthToken ctx req).val ≠ none))) ∧
    (∀ (pre post : List (AuthTokenRefiller T)) (r : AuthTokenRefiller T),
      dse.AuthTokenRefillers = pre ++ r :: post → preRefillPasses dse ctx tok →
      (∀ q ∈ pre, q.declines ctx tok) → (r.ProcessAuthToken ctx tok).2 = some e →
      errorsIs (some e) GoError.ErrAuthDataNotSupported = false →
      (∀ rat, dse.AuthTokenDeserializer.DeserializeAuthToken ctx rat = (tok, none) →
        (dse.GetRawAuthToken ctx rat).val = tok ∧
        (dse.GetRawAuthToken ctx rat).err = some e ∧
        (tok ≠ none → (dse.GetRawAuthToken ctx rat).val ≠ none)) ∧
      (∀ req, dse.HTTPAuthTokenDeserializer.DeserializeAuthTokenFromRequest ctx req =
          (tok, none) →
        (dse.GetRequestAuthToken ctx req).val = tok ∧
        (dse.GetRequestAuthToken ctx req).err = some e ∧
        (tok ≠ none → (dse.GetRequestAuthToken ctx req).val ≠ none))) := by
  refine ⟨?_, ?_, ?_⟩
  · intro v hval hpre
    constructor
    · intro rat hd
      have h : dse.GetRawAuthToken ctx rat =
          { val := tok, err := some e,
            calls := [SessionCall.DeserializeAuthToken rat,
              SessionCall.ValidatePreRefill tok] } := by
        simp [DefaultSessionEngine.GetRawAuthToken, hd, hval, hpre]
      rw [h]
      exact ⟨rfl, rfl, fun ht => ht⟩
    · intro req hd
      have h : dse.GetRequestAuthToken ctx req =
          { val := tok, err := some e,
            calls := [SessionCall.DeserializeAuthTokenFromRequest req,
              SessionCall.ValidatePreRefill tok] } := by
        simp [DefaultSessionEngine.GetRequestAuthToken, hd, hval, hpre]
      rw [h]
      exact ⟨rfl, rfl, fun ht => ht⟩
  · intro v hval hpre hrs hafter
    have hpass : preRefillPasses dse ctx tok := by
      intro w hw
      rw [hval] at hw
      cases hw
      exact hpre
    constructor
    · intro rat hd
      rw [GetRawAuthToken_prelude dse ctx rat tok hd hpass,
        GetRawAuthToken_loop_of_all_decline_validated dse ctx tok v hval _ hrs]
      exact ⟨rfl, hafter, fun ht => ht⟩
    · intro req hd
      rw [GetRequestAuthToken_prelude dse ctx req tok hd hpass,
        GetRawAuthToken_loop_of_all_decline_validated dse ctx tok v hval _ hrs]
      exact ⟨rfl, hafter, fun ht => ht⟩
  · intro pre post r hs hv hpre hr hne
    constructor
    · intro rat hd
      rw [GetRawAuthToken_prelude dse ctx rat tok hd hv, hs,
        GetRawAuthToken_loop_of_failure dse ctx tok pre post r e hpre hr hne]
      exact ⟨rfl, rfl, fun ht => ht⟩
    · intro req hd
      rw [GetRequestAuthToken_prelude dse ctx req tok hd hv, hs,
        GetRawAuthToken_loop_of_failure dse ctx tok pre post r e hpre hr hne]
      exact ⟨rfl, rfl, fun ht => ht⟩

/-- Witness of C21: the deserialized token is `5`; a validator rejecting before the
refill, a validator rejecting after it and a failing refiller each make
`GetRawAuthToken` return the token `5` together with the error. -/
theorem GetAuthToken_error_keeps_token_witness :
    ((Example.sessionEngine (some (Example.rejectPreRefill (GoError.errorString "expired")))
        []).GetRawAuthToken Example.ctx []).val = some 5 ∧
    ((Example.sessionEngine (some (Example.rejectPreRefill (GoError.errorString "expired")))
        []).GetRawAuthToken Example.ctx []).err = some (GoError.errorString "expired") ∧
    ((Example.sessionEngine (some Example.rejectAfterRefill)
        [Example.decliningRefiller]).GetRequestAuthToken Example.ctx { id := 1 }).val
      = some 5 ∧
    ((Example.sessionEngine none
        [Example.failingRefiller (GoError.errorString "expired")]).GetRawAuthToken
          Example.ctx []).val = some 5 :=
  have h1 := ((GetAuthToken_error_keeps_token
    (Example.sessionEngine (some (Example.rejectPreRefill (GoError.errorString "expired"))) [])
    Example.ctx (some 5) (GoError.errorString "expired")).1
    (Example.rejectPreRefill (GoError.errorString "expired")) rfl rfl).1 [] rfl
  have h2 := ((GetAuthToken_error_keeps_token
    (Example.sessionEngine (some Example.rejectAfterRefill) [Example.decliningRefiller])
    Example.ctx (some 5) (GoError.errorString "token expired")).2.1
    Example.rejectAfterRefill rfl rfl
    (by intro q hq
        simp only [Example.sessionEngine, List.mem_singleton] at hq
        subst hq; rfl) rfl).2 { id := 1 } rfl
  have h3 := ((GetAuthToken_error_keeps_token
    (Example.sessionEngine none [Example.failingRefiller (GoError.errorString "expired")])
    Example.ctx (some 5) (GoError.errorString "expired")).2.2
    [] [] (Example.failingRefiller (GoError.errorString "expired")) rfl
    (fun v hv => by cases hv) (by simp) rfl (by decide)).1 [] rfl
  ⟨h1.1, h1.2.1, h2.1, h3.1⟩

end Rocho
